import Mathlib

/-!
Shallow embedding of the `prompt-schema` extraction and rendering core
(TypeScript), for checking the natural-language specification against the
implementation.

Conventions of the embedding:
* JavaScript runtime values that can appear in a schema document (`const`,
  `enum` members, examples, defaults) are modelled by `JsonValue`
  (floating-point numbers are restricted to integers, which is all the
  claims need); `String(v)` is `jsToString`.
* A `JsonSchema` node is a single-constructor inductive: the non-recursive
  keys live in `SchemaCore`, the recursive keys (`properties`, `items`,
  `oneOf`, `anyOf`, `allOf`, `additionalProperties`) are constructor
  arguments.  A missing key is `Option.none`.  The `items` key may hold one
  schema or an array of schemas at runtime (`Array.isArray(schema.items)` is
  checked in the source), hence `JItems`.  `additionalProperties` may be a
  boolean or a schema at runtime, hence `JAddProps`.  The `not` key is only
  ever read for truthiness (in `unwrapNullable`), so it is modelled as a
  presence flag `hasNot`.
* JavaScript truthiness is modelled explicitly where the source relies on
  it: an empty string is falsy, an array (even empty) is truthy, `0` is
  falsy, an object is truthy.
* The runtime representation of the TypeScript string-union `FieldType` is a
  plain string, and the source casts arbitrary strings into it
  (`schema.type as FieldType`); therefore `FieldType` is embedded as
  `String`.
-/

set_option maxHeartbeats 1600000
set_option maxRecDepth 16384

namespace PromptSchema

/-- A JSON runtime value (numbers restricted to integers). -/
inductive JsonValue : Type where
  | null : JsonValue
  | bool (b : Bool) : JsonValue
  | num (n : Int) : JsonValue
  | str (s : String) : JsonValue
deriving Repr, DecidableEq

/-- JavaScript `String(v)` on a `JsonValue`. -/
def jsToString : JsonValue → String
  | JsonValue.null => "null"
  | JsonValue.bool true => "true"
  | JsonValue.bool false => "false"
  | JsonValue.num n => toString n
  | JsonValue.str s => s

/-- The `type` key of a schema node: absent, a single string, or an array of
strings (`type?: string | string[]`). -/
inductive TypeField : Type where
  | absent : TypeField
  | str (s : String) : TypeField
  | arr (ts : List String) : TypeField
deriving Repr, DecidableEq

/-- The non-recursive keys of a JSON-Schema node (src/types.ts `JsonSchema`).
`badExamples` is an extension key read by `extractField`. -/
structure SchemaCore : Type where
  typeF : TypeField := TypeField.absent
  enumF : Option (List JsonValue) := Option.none
  constF : Option JsonValue := Option.none
  requiredF : Option (List String) := Option.none
  minLength : Option Int := Option.none
  maxLength : Option Int := Option.none
  pattern : Option String := Option.none
  format : Option String := Option.none
  minimum : Option Int := Option.none
  maximum : Option Int := Option.none
  minItems : Option Int := Option.none
  maxItems : Option Int := Option.none
  description : Option String := Option.none
  title : Option String := Option.none
  examples : Option (List JsonValue) := Option.none
  badExamples : Option (List JsonValue) := Option.none
  defaultF : Option JsonValue := Option.none
  hasNot : Bool := false
deriving Repr, DecidableEq

/-- The `items` key: absent, one schema, or an array of schemas. -/
inductive JItems (α : Type) : Type where
  | absent : JItems α
  | single (s : α) : JItems α
  | list (ss : List α) : JItems α
deriving Repr

/-- The `additionalProperties` key: absent, a boolean, or a schema. -/
inductive JAddProps (α : Type) : Type where
  | absent : JAddProps α
  | abool (b : Bool) : JAddProps α
  | aschema (s : α) : JAddProps α
deriving Repr

/-- A JSON-Schema node.  `properties` is the ordered key/value list of the
source object (JS object property order). -/
inductive JsonSchema : Type where
  | mk (core : SchemaCore)
       (properties : Option (List (String × JsonSchema)))
       (items : JItems JsonSchema)
       (oneOf : Option (List JsonSchema))
       (anyOf : Option (List JsonSchema))
       (allOf : Option (List JsonSchema))
       (addProps : JAddProps JsonSchema)

def JsonSchema.core : JsonSchema → SchemaCore
  | JsonSchema.mk c _ _ _ _ _ _ => c

def JsonSchema.properties : JsonSchema → Option (List (String × JsonSchema))
  | JsonSchema.mk _ p _ _ _ _ _ => p

def JsonSchema.items : JsonSchema → JItems JsonSchema
  | JsonSchema.mk _ _ i _ _ _ _ => i

def JsonSchema.oneOf : JsonSchema → Option (List JsonSchema)
  | JsonSchema.mk _ _ _ o _ _ _ => o

def JsonSchema.anyOf : JsonSchema → Option (List JsonSchema)
  | JsonSchema.mk _ _ _ _ a _ _ => a

def JsonSchema.allOf : JsonSchema → Option (List JsonSchema)
  | JsonSchema.mk _ _ _ _ _ al _ => al

def JsonSchema.addProps : JsonSchema → JAddProps JsonSchema
  | JsonSchema.mk _ _ _ _ _ _ ap => ap

def JsonSchema.typeF (s : JsonSchema) : TypeField := s.core.typeF

/-- The JS spread copy `{...schema, type: t}` used by `unwrapNullable`. -/
def JsonSchema.setTypeF : JsonSchema → TypeField → JsonSchema
  | JsonSchema.mk c p i o a al ap, t => JsonSchema.mk { c with typeF := t } p i o a al ap

/-- A schema value with every key absent (also the result of reading schema
keys off a non-object value such as `true`, where every access yields
`undefined`). -/
def emptySchema : JsonSchema :=
  JsonSchema.mk {} Option.none JItems.absent Option.none Option.none Option.none JAddProps.absent

/-- Truthiness of the `additionalProperties` key (`false` is falsy, any
object or `true` is truthy). -/
def JAddProps.truthy : JAddProps JsonSchema → Bool
  | JAddProps.absent => false
  | JAddProps.abool b => b
  | JAddProps.aschema _ => true

/-- The JS cast `schema.additionalProperties as JsonSchema`: a schema is
itself, a boolean has every schema key read as `undefined`. -/
def JAddProps.asSchema : JAddProps JsonSchema → JsonSchema
  | JAddProps.aschema s => s
  | _ => emptySchema

/-- Truthiness of the `items` key (any object or array is truthy). -/
def JItems.truthy : JItems JsonSchema → Bool
  | JItems.absent => false
  | _ => true

/-- JS truthiness of an optional string (absent and `""` are falsy). -/
def truthyStr : Option String → Bool
  | Option.some s => s ≠ ""
  | Option.none => false

/-- `a || b` on optional string values (JS `||` returns `b` whenever `a` is
absent or empty). -/
def orTruthyStr (a b : Option String) : Option String :=
  if truthyStr a then a else b

/-- `a || b` on optional array values (a present array is truthy even when
empty). -/
def orTruthyList (a b : Option (List JsonValue)) : Option (List JsonValue) :=
  if a.isSome then a else b

/-- `s.type === 'null'`. -/
def isNullType (s : JsonSchema) : Bool := s.typeF = TypeField.str "null"

/-- Result record of `unwrapNullable`. -/
structure UnwrapResult : Type where
  actualSchema : JsonSchema
  isNullable : Bool

/-- First encoding checked by `unwrapNullable`: an `anyOf` set with a null
branch and exactly one non-null branch (the body of the source's first
`if`-block, which returns early when it fires). -/
def unwrapViaAnyOf (schema : JsonSchema) : Option UnwrapResult :=
  match schema.anyOf with
  | Option.some branches =>
    let hasNull := branches.any isNullType
    let nonNullSchemas := branches.filter (fun s => !isNullType s)
    if hasNull ∧ nonNullSchemas.length = 1 then
      let a := nonNullSchemas.headD emptySchema
      -- Handle nested anyOf (from optional + nullable)
      let actual :=
        match a.anyOf with
        | Option.some inner =>
          match inner.find? (fun s => !s.core.hasNot) with
          | Option.some innerActual => innerActual
          | Option.none => a
        | Option.none => a
      Option.some ⟨actual, true⟩
    else Option.none
  | Option.none => Option.none

/-- src/extractors/utils/unwrapNullable.ts: detect the `anyOf`-with-null and
`type`-array-with-"null" encodings of nullability. -/
def unwrapNullable (schema : JsonSchema) : UnwrapResult :=
  match unwrapViaAnyOf schema with
  | Option.some r => r
  | Option.none =>
    match schema.typeF with
    | TypeField.arr ts =>
      if "null" ∈ ts then
        let nonNullTypes := ts.filter (fun t => t ≠ "null")
        ⟨schema.setTypeF
          (match nonNullTypes with
           | [t] => TypeField.str t
           | _ => TypeField.arr nonNullTypes), true⟩
      else ⟨schema, false⟩
    | _ => ⟨schema, false⟩

/-! ### A structural measure on schema nodes

`schemaSize` counts only the recursive structure (sub-schemas reachable
through `properties`, `items`, `oneOf`, `anyOf`, `allOf`,
`additionalProperties`), ignoring the scalar keys.  It is the termination
measure of the extraction functions; crucially the spread copy performed by
`unwrapNullable` (which only rewrites the `type` key) preserves it. -/

mutual

def schemaSize : JsonSchema → Nat
  | JsonSchema.mk _ props items oneOf anyOf allOf ap =>
    1 + sizeProps props + sizeItems items + sizeBranches oneOf + sizeBranches anyOf
      + sizeBranches allOf + sizeAddProps ap

def sizeProps : Option (List (String × JsonSchema)) → Nat
  | Option.none => 0
  | Option.some l => sizePropList l + 1

def sizePropList : List (String × JsonSchema) → Nat
  | [] => 0
  | p :: rest => schemaSize p.2 + sizePropList rest + 1

def sizeItems : JItems JsonSchema → Nat
  | JItems.absent => 0
  | JItems.single s => schemaSize s + 1
  | JItems.list l => sizeSchemaList l + 1

def sizeSchemaList : List JsonSchema → Nat
  | [] => 0
  | s :: rest => schemaSize s + sizeSchemaList rest + 1

def sizeBranches : Option (List JsonSchema) → Nat
  | Option.none => 0
  | Option.some l => sizeSchemaList l + 1

def sizeAddProps : JAddProps JsonSchema → Nat
  | JAddProps.absent => 0
  | JAddProps.abool _ => 0
  | JAddProps.aschema s => schemaSize s + 1

end

theorem schemaSize_pos (s : JsonSchema) : 1 ≤ schemaSize s := by
  cases s with
  | mk c p i o a al ap => rw [schemaSize]; omega

theorem schemaSize_lt_sizeSchemaList {s : JsonSchema} {l : List JsonSchema}
    (h : s ∈ l) : schemaSize s < sizeSchemaList l := by
  induction l with
  | nil => cases h
  | cons x xs ih =>
    rw [sizeSchemaList]
    rcases List.mem_cons.mp h with h1 | h2
    · subst h1; omega
    · have := ih h2; omega

theorem schemaSize_lt_sizePropList {n : String} {s : JsonSchema}
    {l : List (String × JsonSchema)} (h : (n, s) ∈ l) :
    schemaSize s < sizePropList l := by
  induction l with
  | nil => cases h
  | cons x xs ih =>
    rw [sizePropList]
    rcases List.mem_cons.mp h with h1 | h2
    · subst h1
      change schemaSize s < schemaSize s + sizePropList xs + 1
      omega
    · have := ih h2; omega

theorem schemaSize_lt_of_mem_properties {s fs : JsonSchema} {n : String}
    {props : List (String × JsonSchema)}
    (hp : s.properties = Option.some props) (h : (n, fs) ∈ props) :
    schemaSize fs < schemaSize s := by
  cases s with
  | mk c p i o a al ap =>
    rw [JsonSchema.properties] at hp
    subst hp
    rw [schemaSize, sizeProps]
    have := schemaSize_lt_sizePropList h
    omega

theorem schemaSize_lt_of_mem_oneOf {s v : JsonSchema} {l : List JsonSchema}
    (ho : s.oneOf = Option.some l) (h : v ∈ l) :
    schemaSize v < schemaSize s := by
  cases s with
  | mk c p i o a al ap =>
    rw [JsonSchema.oneOf] at ho
    subst ho
    rw [schemaSize, sizeBranches]
    have := schemaSize_lt_sizeSchemaList h
    omega

theorem schemaSize_lt_of_mem_anyOf {s v : JsonSchema} {l : List JsonSchema}
    (ha : s.anyOf = Option.some l) (h : v ∈ l) :
    schemaSize v < schemaSize s := by
  cases s with
  | mk c p i o a al ap =>
    rw [JsonSchema.anyOf] at ha
    subst ha
    rw [schemaSize, sizeBranches]
    have := schemaSize_lt_sizeSchemaList h
    omega

theorem schemaSize_lt_of_items_single {s i : JsonSchema}
    (h : s.items = JItems.single i) : schemaSize i < schemaSize s := by
  cases s with
  | mk c p it o a al ap =>
    rw [JsonSchema.items] at h
    subst h
    rw [schemaSize, sizeItems]
    omega

theorem schemaSize_lt_of_mem_items_list {s i : JsonSchema} {l : List JsonSchema}
    (h : s.items = JItems.list l) (hm : i ∈ l) : schemaSize i < schemaSize s := by
  cases s with
  | mk c p it o a al ap =>
    rw [JsonSchema.items] at h
    subst h
    rw [schemaSize, sizeItems]
    have := schemaSize_lt_sizeSchemaList hm
    omega

theorem schemaSize_asSchema_le (s : JsonSchema) :
    schemaSize s.addProps.asSchema ≤ schemaSize s := by
  cases s with
  | mk c p i o a al ap =>
    have hle : schemaSize (JAddProps.asSchema ap) ≤ 1 + sizeAddProps ap := by
      cases ap with
      | absent =>
        simp only [JAddProps.asSchema, emptySchema, schemaSize, sizeProps, sizeItems,
          sizeBranches, sizeAddProps]
        omega
      | abool b =>
        simp only [JAddProps.asSchema, emptySchema, schemaSize, sizeProps, sizeItems,
          sizeBranches, sizeAddProps]
        omega
      | aschema v =>
        simp only [JAddProps.asSchema, sizeAddProps]
        omega
    simp only [JsonSchema.addProps, schemaSize]
    omega

theorem schemaSize_setTypeF (s : JsonSchema) (t : TypeField) :
    schemaSize (s.setTypeF t) = schemaSize s := by
  cases s with
  | mk c p i o a al ap => rw [JsonSchema.setTypeF, schemaSize, schemaSize]

/-- When the `anyOf` encoding fires, the unwrapped schema is strictly
smaller. -/
theorem schemaSize_unwrapViaAnyOf_lt (s : JsonSchema) (r : UnwrapResult)
    (h : unwrapViaAnyOf s = Option.some r) :
    schemaSize r.actualSchema < schemaSize s := by
  unfold unwrapViaAnyOf at h
  cases ha : s.anyOf with
  | none => rw [ha] at h; cases h
  | some branches =>
    rw [ha] at h
    simp only at h
    by_cases hg : (branches.any isNullType : Prop) ∧
        (branches.filter (fun s => !isNullType s)).length = 1
    · rw [if_pos hg] at h
      have hlen : (branches.filter (fun s => !isNullType s)).length = 1 := hg.2
      obtain ⟨x, hx⟩ := List.length_eq_one.mp hlen
      have hxb : x ∈ branches := List.mem_of_mem_filter (hx ▸ List.mem_singleton_self x)
      have hhead : (branches.filter (fun s => !isNullType s)).headD emptySchema = x := by
        rw [hx]; rfl
      rw [hhead] at h
      have hlt : schemaSize x < schemaSize s := schemaSize_lt_of_mem_anyOf ha hxb
      cases hai : x.anyOf with
      | none =>
        rw [hai] at h
        cases h
        exact hlt
      | some inner =>
        rw [hai] at h
        simp only at h
        cases hf : inner.find? (fun s => !s.core.hasNot) with
        | none =>
          rw [hf] at h
          cases h
          exact hlt
        | some innerActual =>
          rw [hf] at h
          cases h
          have hmem2 : innerActual ∈ inner := List.mem_of_find?_eq_some hf
          have hlt2 : schemaSize innerActual < schemaSize x :=
            schemaSize_lt_of_mem_anyOf hai hmem2
          exact Nat.lt_trans hlt2 hlt
    · rw [if_neg hg] at h; cases h

/-- The schema returned by `unwrapNullable` is never structurally larger than
its input. -/
theorem schemaSize_unwrapNullable_le (s : JsonSchema) :
    schemaSize (unwrapNullable s).actualSchema ≤ schemaSize s := by
  unfold unwrapNullable
  cases hv : unwrapViaAnyOf s with
  | some r =>
    simp only
    exact Nat.le_of_lt (schemaSize_unwrapViaAnyOf_lt s r hv)
  | none =>
    simp only
    split
    · split
      · exact Nat.le_of_eq (schemaSize_setTypeF s _)
      · exact Nat.le_refl _
    · exact Nat.le_refl _

/-! ### Classifiers and flat extractors -/

/-- `Array.isArray(schema.type) && schema.type.length > 1`. -/
def typeIsMultiArr (t : TypeField) : Bool :=
  match t with
  | TypeField.arr ts => ts.length > 1
  | _ => false

/-- src/extractors/utils/detectFieldType.ts: shape-based classification.
`FieldType` is embedded as `String` (its runtime representation). -/
def detectFieldType (schema : JsonSchema) : String :=
  if schema.core.enumF.isSome then "enum"
  else if schema.core.constF.isSome then "enum"
  else if schema.oneOf.isSome ∨ schema.anyOf.isSome then "union"
  else if schema.allOf.isSome then "object" -- Intersection treated as object
  else if typeIsMultiArr schema.typeF then "union"
  else if schema.typeF = TypeField.str "object" then
    if schema.addProps.truthy ∧ schema.properties.isNone then "record" else "object"
  else if schema.typeF = TypeField.str "array" then
    (match schema.items with
     | JItems.list _ => "tuple"
     | _ => "array")
  else if schema.typeF = TypeField.str "string" ∧ schema.core.format = Option.some "date-time"
    then "date"
  else if schema.typeF = TypeField.str "integer" then "integer"
  else if schema.typeF = TypeField.str "number" then "number"
  else if schema.typeF = TypeField.str "boolean" then "boolean"
  else if schema.typeF = TypeField.str "string" then "string"
  else "any"

/-- src/extractors/utils/getVariantType.ts: coarse type name of a union
branch. -/
def getVariantType (schema : JsonSchema) : String :=
  if schema.typeF = TypeField.str "string" then "string"
  else if schema.typeF = TypeField.str "number" then "number"
  else if schema.typeF = TypeField.str "integer" then "integer"
  else if schema.typeF = TypeField.str "boolean" then "boolean"
  else if schema.typeF = TypeField.str "object" then "object"
  else if schema.typeF = TypeField.str "array" then "array"
  else if schema.core.enumF.isSome then "enum"
  else "unknown"

/-- One validation constraint (`FieldConstraint` of the model types; the
`type` tag is one of the eight recognized kind strings, `value` is the raw
string-or-number, `display` the precomputed fragment). -/
structure FieldConstraint : Type where
  ctype : String
  value : JsonValue
  display : Option String := Option.none
deriving Repr, DecidableEq

/-- src/extractors/extractConstraints.ts: one entry per recognized,
truthy/present key, in fixed enumeration order. -/
def extractConstraints (schema : JsonSchema) : List FieldConstraint :=
  let c := schema.core
  -- String constraints
  (match c.minLength with
   | Option.some n => [⟨"minLength", JsonValue.num n, Option.some s!"min {n} chars"⟩]
   | Option.none => []) ++
  (match c.maxLength with
   | Option.some n => [⟨"maxLength", JsonValue.num n, Option.some s!"max {n} chars"⟩]
   | Option.none => []) ++
  (if truthyStr c.pattern then
     [⟨"pattern", JsonValue.str (c.pattern.getD ""), Option.some ("pattern: " ++ c.pattern.getD "")⟩]
   else []) ++
  (if truthyStr c.format then
     [⟨"format", JsonValue.str (c.format.getD ""), Option.some ("format: " ++ c.format.getD "")⟩]
   else []) ++
  -- Number constraints
  (match c.minimum with
   | Option.some n => [⟨"min", JsonValue.num n, Option.some s!"min: {n}"⟩]
   | Option.none => []) ++
  (match c.maximum with
   | Option.some n => [⟨"max", JsonValue.num n, Option.some s!"max: {n}"⟩]
   | Option.none => []) ++
  -- Array constraints
  (match c.minItems with
   | Option.some n => [⟨"minItems", JsonValue.num n, Option.some s!"min {n} items"⟩]
   | Option.none => []) ++
  (match c.maxItems with
   | Option.some n => [⟨"maxItems", JsonValue.num n, Option.some s!"max {n} items"⟩]
   | Option.none => [])

/-- Property lookup on a schema's `properties` object
(`v.properties?.[name]`). -/
def lookupProp (props : List (String × JsonSchema)) (n : String) : Option JsonSchema :=
  match props.find? (fun p => p.1 = n) with
  | Option.some p => Option.some p.2
  | Option.none => Option.none

/-- `variant.properties?.[fieldName]?.const`. -/
def constOfProp (v : JsonSchema) (fieldName : String) : Option JsonValue :=
  match v.properties with
  | Option.some props =>
    match lookupProp props fieldName with
    | Option.some fs => fs.core.constF
    | Option.none => Option.none
  | Option.none => Option.none

/-- src/extractors/utils/findDiscriminator.ts: first candidate name carried
as a `const` by every branch. -/
def findDiscriminator (variants : List JsonSchema) : Option String :=
  ["type", "kind", "discriminator"].find?
    (fun fieldName => variants.all (fun v => (constOfProp v fieldName).isSome))

/-! ### The extracted field model (`SchemaField`) -/

/-- One example attached to a field. -/
structure FieldExample : Type where
  value : JsonValue
  isCorrect : Bool
  description : Option String := Option.none
deriving Repr, DecidableEq

/-- The non-recursive attributes of a `SchemaField`. -/
structure FieldCore : Type where
  name : String
  type : String
  isRequired : Bool
  isNullable : Option Bool := Option.none
  enumValues : Option (List String) := Option.none
  recordKeyType : Option String := Option.none
  discriminatorField : Option String := Option.none
  description : Option String := Option.none
  constraints : Option (List FieldConstraint) := Option.none
  examples : Option (List FieldExample) := Option.none
  defaultValue : Option JsonValue := Option.none
deriving Repr, DecidableEq

/-- `FieldType | SchemaField` (a bare kind string or a nested field). -/
inductive FTF (α : Type) : Type where
  | ft (t : String) : FTF α
  | fld (f : α) : FTF α
deriving Repr

/-- One discriminated-union variant: its tag value and its field list. -/
structure UVariant (α : Type) : Type where
  discriminatorValue : String
  fields : List α
deriving Repr

/-- The canonical extracted field node (`SchemaField` of the model types):
non-recursive attributes in `FieldCore`, recursive payloads as constructor
arguments (all optional, absent unless the matching branch populates them). -/
inductive SchemaField : Type where
  | mk (core : FieldCore)
       (arrayItemType : Option (FTF SchemaField))
       (tupleItems : Option (List (FTF SchemaField)))
       (recordValueType : Option (FTF SchemaField))
       (objectFields : Option (List SchemaField))
       (unionVariants : Option (List (UVariant SchemaField)))
       (unionTypes : Option (List (FTF SchemaField)))

def SchemaField.core : SchemaField → FieldCore
  | SchemaField.mk c _ _ _ _ _ _ => c

def SchemaField.arrayItemType : SchemaField → Option (FTF SchemaField)
  | SchemaField.mk _ a _ _ _ _ _ => a

def SchemaField.tupleItems : SchemaField → Option (List (FTF SchemaField))
  | SchemaField.mk _ _ t _ _ _ _ => t

def SchemaField.recordValueType : SchemaField → Option (FTF SchemaField)
  | SchemaField.mk _ _ _ r _ _ _ => r

def SchemaField.objectFields : SchemaField → Option (List SchemaField)
  | SchemaField.mk _ _ _ _ o _ _ => o

def SchemaField.unionVariants : SchemaField → Option (List (UVariant SchemaField))
  | SchemaField.mk _ _ _ _ _ v _ => v

def SchemaField.unionTypes : SchemaField → Option (List (FTF SchemaField))
  | SchemaField.mk _ _ _ _ _ _ u => u

def SchemaField.name (f : SchemaField) : String := f.core.name

def SchemaField.type (f : SchemaField) : String := f.core.type

def SchemaField.isRequired (f : SchemaField) : Bool := f.core.isRequired

def SchemaField.isNullable (f : SchemaField) : Option Bool := f.core.isNullable

def SchemaField.enumValues (f : SchemaField) : Option (List String) := f.core.enumValues

def SchemaField.recordKeyType (f : SchemaField) : Option String := f.core.recordKeyType

def SchemaField.discriminatorField (f : SchemaField) : Option String := f.core.discriminatorField

def SchemaField.description (f : SchemaField) : Option String := f.core.description

def SchemaField.constraints (f : SchemaField) : Option (List FieldConstraint) := f.core.constraints

def SchemaField.examples (f : SchemaField) : Option (List FieldExample) := f.core.examples

def SchemaField.defaultValue (f : SchemaField) : Option JsonValue := f.core.defaultValue

/-- A field holding only core attributes (the object literal the source
builds before assigning type-specific payloads). -/
@[simp] def SchemaField.base (c : FieldCore) : SchemaField :=
  SchemaField.mk c Option.none Option.none Option.none Option.none Option.none Option.none

/-! Mutation of one attribute (the source's `field.x = v` assignments). -/

def SchemaField.setCore : SchemaField → FieldCore → SchemaField
  | SchemaField.mk _ a t r o v u, c => SchemaField.mk c a t r o v u

@[simp] def SchemaField.setType (f : SchemaField) (ty : String) : SchemaField :=
  f.setCore { f.core with type := ty }

@[simp] def SchemaField.setEnumValues (f : SchemaField) (e : Option (List String)) : SchemaField :=
  f.setCore { f.core with enumValues := e }

@[simp] def SchemaField.setRecordKeyType (f : SchemaField) (k : Option String) : SchemaField :=
  f.setCore { f.core with recordKeyType := k }

@[simp] def SchemaField.setDiscriminatorField (f : SchemaField) (d : Option String) : SchemaField :=
  f.setCore { f.core with discriminatorField := d }

@[simp] def SchemaField.setDescription (f : SchemaField) (d : Option String) : SchemaField :=
  f.setCore { f.core with description := d }

@[simp] def SchemaField.setConstraints (f : SchemaField) (c : Option (List FieldConstraint)) : SchemaField :=
  f.setCore { f.core with constraints := c }

@[simp] def SchemaField.setExamples (f : SchemaField) (e : Option (List FieldExample)) : SchemaField :=
  f.setCore { f.core with examples := e }

@[simp] def SchemaField.setDefaultValue (f : SchemaField) (d : Option JsonValue) : SchemaField :=
  f.setCore { f.core with defaultValue := d }

def SchemaField.setArrayItemType : SchemaField → Option (FTF SchemaField) → SchemaField
  | SchemaField.mk c _ t r o v u, a => SchemaField.mk c a t r o v u

def SchemaField.setTupleItems : SchemaField → Option (List (FTF SchemaField)) → SchemaField
  | SchemaField.mk c a _ r o v u, t => SchemaField.mk c a t r o v u

def SchemaField.setRecordValueType : SchemaField → Option (FTF SchemaField) → SchemaField
  | SchemaField.mk c a t _ o v u, r => SchemaField.mk c a t r o v u

def SchemaField.setObjectFields : SchemaField → Option (List SchemaField) → SchemaField
  | SchemaField.mk c a t r _ v u, o => SchemaField.mk c a t r o v u

def SchemaField.setUnionVariants : SchemaField → Option (List (UVariant SchemaField)) → SchemaField
  | SchemaField.mk c a t r o _ u, v => SchemaField.mk c a t r o v u

def SchemaField.setUnionTypes : SchemaField → Option (List (FTF SchemaField)) → SchemaField
  | SchemaField.mk c a t r o v _, u => SchemaField.mk c a t r o v u

/-! Commutation of the scalar accessors with constructors and updaters. -/

@[simp] theorem name_mk (c a2 t r o v u) : (SchemaField.mk c a2 t r o v u).name = c.name := rfl

@[simp] theorem name_base (c : FieldCore) : (SchemaField.base c).name = c.name := rfl

@[simp] theorem name_setCore (f : SchemaField) (c : FieldCore) : (f.setCore c).name = c.name := by cases f; rfl

@[simp] theorem name_setArrayItemType (f : SchemaField) (v : Option (FTF SchemaField)) : (SchemaField.setArrayItemType f v).name = f.name := by cases f; rfl

@[simp] theorem name_setTupleItems (f : SchemaField) (v : Option (List (FTF SchemaField))) : (SchemaField.setTupleItems f v).name = f.name := by cases f; rfl

@[simp] theorem name_setRecordValueType (f : SchemaField) (v : Option (FTF SchemaField)) : (SchemaField.setRecordValueType f v).name = f.name := by cases f; rfl

@[simp] theorem name_setObjectFields (f : SchemaField) (v : Option (List SchemaField)) : (SchemaField.setObjectFields f v).name = f.name := by cases f; rfl

@[simp] theorem name_setUnionVariants (f : SchemaField) (v : Option (List (UVariant SchemaField))) : (SchemaField.setUnionVariants f v).name = f.name := by cases f; rfl

@[simp] theorem name_setUnionTypes (f : SchemaField) (v : Option (List (FTF SchemaField))) : (SchemaField.setUnionTypes f v).name = f.name := by cases f; rfl

@[simp] theorem type_mk (c a2 t r o v u) : (SchemaField.mk c a2 t r o v u).type = c.type := rfl

@[simp] theorem type_base (c : FieldCore) : (SchemaField.base c).type = c.type := rfl

@[simp] theorem type_setCore (f : SchemaField) (c : FieldCore) : (f.setCore c).type = c.type := by cases f; rfl

@[simp] theorem type_setArrayItemType (f : SchemaField) (v : Option (FTF SchemaField)) : (SchemaField.setArrayItemType f v).type = f.type := by cases f; rfl

@[simp] theorem type_setTupleItems (f : SchemaField) (v : Option (List (FTF SchemaField))) : (SchemaField.setTupleItems f v).type = f.type := by cases f; rfl

@[simp] theorem type_setRecordValueType (f : SchemaField) (v : Option (FTF SchemaField)) : (SchemaField.setRecordValueType f v).type = f.type := by cases f; rfl

@[simp] theorem type_setObjectFields (f : SchemaField) (v : Option (List SchemaField)) : (SchemaField.setObjectFields f v).type = f.type := by cases f; rfl

@[simp] theorem type_setUnionVariants (f : SchemaField) (v : Option (List (UVariant SchemaField))) : (SchemaField.setUnionVariants f v).type = f.type := by cases f; rfl

@[simp] theorem type_setUnionTypes (f : SchemaField) (v : Option (List (FTF SchemaField))) : (SchemaField.setUnionTypes f v).type = f.type := by cases f; rfl

@[simp] theorem isRequired_mk (c a2 t r o v u) : (SchemaField.mk c a2 t r o v u).isRequired = c.isRequired := rfl

@[simp] theorem isRequired_base (c : FieldCore) : (SchemaField.base c).isRequired = c.isRequired := rfl

@[simp] theorem isRequired_setCore (f : SchemaField) (c : FieldCore) : (f.setCore c).isRequired = c.isRequired := by cases f; rfl

@[simp] theorem isRequired_setArrayItemType (f : SchemaField) (v : Option (FTF SchemaField)) : (SchemaField.setArrayItemType f v).isRequired = f.isRequired := by cases f; rfl

@[simp] theorem isRequired_setTupleItems (f : SchemaField) (v : Option (List (FTF SchemaField))) : (SchemaField.setTupleItems f v).isRequired = f.isRequired := by cases f; rfl

@[simp] theorem isRequired_setRecordValueType (f : SchemaField) (v : Option (FTF SchemaField)) : (SchemaField.setRecordValueType f v).isRequired = f.isRequired := by cases f; rfl

@[simp] theorem isRequired_setObjectFields (f : SchemaField) (v : Option (List SchemaField)) : (SchemaField.setObjectFields f v).isRequired = f.isRequired := by cases f; rfl

@[simp] theorem isRequired_setUnionVariants (f : SchemaField) (v : Option (List (UVariant SchemaField))) : (SchemaField.setUnionVariants f v).isRequired = f.isRequired := by cases f; rfl

@[simp] theorem isRequired_setUnionTypes (f : SchemaField) (v : Option (List (FTF SchemaField))) : (SchemaField.setUnionTypes f v).isRequired = f.isRequired := by cases f; rfl

@[simp] theorem isNullable_mk (c a2 t r o v u) : (SchemaField.mk c a2 t r o v u).isNullable = c.isNullable := rfl

@[simp] theorem isNullable_base (c : FieldCore) : (SchemaField.base c).isNullable = c.isNullable := rfl

@[simp] theorem isNullable_setCore (f : SchemaField) (c : FieldCore) : (f.setCore c).isNullable = c.isNullable := by cases f; rfl

@[simp] theorem isNullable_setArrayItemType (f : SchemaField) (v : Option (FTF SchemaField)) : (SchemaField.setArrayItemType f v).isNullable = f.isNullable := by cases f; rfl

@[simp] theorem isNullable_setTupleItems (f : SchemaField) (v : Option (List (FTF SchemaField))) : (SchemaField.setTupleItems f v).isNullable = f.isNullable := by cases f; rfl

@[simp] theorem isNullable_setRecordValueType (f : SchemaField) (v : Option (FTF SchemaField)) : (SchemaField.setRecordValueType f v).isNullable = f.isNullable := by cases f; rfl

@[simp] theorem isNullable_setObjectFields (f : SchemaField) (v : Option (List SchemaField)) : (SchemaField.setObjectFields f v).isNullable = f.isNullable := by cases f; rfl

@[simp] theorem isNullable_setUnionVariants (f : SchemaField) (v : Option (List (UVariant SchemaField))) : (SchemaField.setUnionVariants f v).isNullable = f.isNullable := by cases f; rfl

@[simp] theorem isNullable_setUnionTypes (f : SchemaField) (v : Option (List (FTF SchemaField))) : (SchemaField.setUnionTypes f v).isNullable = f.isNullable := by cases f; rfl

@[simp] theorem enumValues_mk (c a2 t r o v u) : (SchemaField.mk c a2 t r o v u).enumValues = c.enumValues := rfl

@[simp] theorem enumValues_base (c : FieldCore) : (SchemaField.base c).enumValues = c.enumValues := rfl

@[simp] theorem enumValues_setCore (f : SchemaField) (c : FieldCore) : (f.setCore c).enumValues = c.enumValues := by cases f; rfl

@[simp] theorem enumValues_setArrayItemType (f : SchemaField) (v : Option (FTF SchemaField)) : (SchemaField.setArrayItemType f v).enumValues = f.enumValues := by cases f; rfl

@[simp] theorem enumValues_setTupleItems (f : SchemaField) (v : Option (List (FTF SchemaField))) : (SchemaField.setTupleItems f v).enumValues = f.enumValues := by cases f; rfl

@[simp] theorem enumValues_setRecordValueType (f : SchemaField) (v : Option (FTF SchemaField)) : (SchemaField.setRecordValueType f v).enumValues = f.enumValues := by cases f; rfl

@[simp] theorem enumValues_setObjectFields (f : SchemaField) (v : Option (List SchemaField)) : (SchemaField.setObjectFields f v).enumValues = f.enumValues := by cases f; rfl

@[simp] theorem enumValues_setUnionVariants (f : SchemaField) (v : Option (List (UVariant SchemaField))) : (SchemaField.setUnionVariants f v).enumValues = f.enumValues := by cases f; rfl

@[simp] theorem enumValues_setUnionTypes (f : SchemaField) (v : Option (List (FTF SchemaField))) : (SchemaField.setUnionTypes f v).enumValues = f.enumValues := by cases f; rfl

@[simp] theorem recordKeyType_mk (c a2 t r o v u) : (SchemaField.mk c a2 t r o v u).recordKeyType = c.recordKeyType := rfl

@[simp] theorem recordKeyType_base (c : FieldCore) : (SchemaField.base c).recordKeyType = c.recordKeyType := rfl

@[simp] theorem recordKeyType_setCore (f : SchemaField) (c : FieldCore) : (f.setCore c).recordKeyType = c.recordKeyType := by cases f; rfl

@[simp] theorem recordKeyType_setArrayItemType (f : SchemaField) (v : Option (FTF SchemaField)) : (SchemaField.setArrayItemType f v).recordKeyType = f.recordKeyType := by cases f; rfl

@[simp] theorem recordKeyType_setTupleItems (f : SchemaField) (v : Option (List (FTF SchemaField))) : (SchemaField.setTupleItems f v).recordKeyType = f.recordKeyType := by cases f; rfl

@[simp] theorem recordKeyType_setRecordValueType (f : SchemaField) (v : Option (FTF SchemaField)) : (SchemaField.setRecordValueType f v).recordKeyType = f.recordKeyType := by cases f; rfl

@[simp] theorem recordKeyType_setObjectFields (f : SchemaField) (v : Option (List SchemaField)) : (SchemaField.setObjectFields f v).recordKeyType = f.recordKeyType := by cases f; rfl

@[simp] theorem recordKeyType_setUnionVariants (f : SchemaField) (v : Option (List (UVariant SchemaField))) : (SchemaField.setUnionVariants f v).recordKeyType = f.recordKeyType := by cases f; rfl

@[simp] theorem recordKeyType_setUnionTypes (f : SchemaField) (v : Option (List (FTF SchemaField))) : (SchemaField.setUnionTypes f v).recordKeyType = f.recordKeyType := by cases f; rfl

@[simp] theorem discriminatorField_mk (c a2 t r o v u) : (SchemaField.mk c a2 t r o v u).discriminatorField = c.discriminatorField := rfl

@[simp] theorem discriminatorField_base (c : FieldCore) : (SchemaField.base c).discriminatorField = c.discriminatorField := rfl

@[simp] theorem discriminatorField_setCore (f : SchemaField) (c : FieldCore) : (f.setCore c).discriminatorField = c.discriminatorField := by cases f; rfl

@[simp] theorem discriminatorField_setArrayItemType (f : SchemaField) (v : Option (FTF SchemaField)) : (SchemaField.setArrayItemType f v).discriminatorField = f.discriminatorField := by cases f; rfl

@[simp] theorem discriminatorField_setTupleItems (f : SchemaField) (v : Option (List (FTF SchemaField))) : (SchemaField.setTupleItems f v).discriminatorField = f.discriminatorField := by cases f; rfl

@[simp] theorem discriminatorField_setRecordValueType (f : SchemaField) (v : Option (FTF SchemaField)) : (SchemaField.setRecordValueType f v).discriminatorField = f.discriminatorField := by cases f; rfl

@[simp] theorem discriminatorField_setObjectFields (f : SchemaField) (v : Option (List SchemaField)) : (SchemaField.setObjectFields f v).discriminatorField = f.discriminatorField := by cases f; rfl

@[simp] theorem discriminatorField_setUnionVariants (f : SchemaField) (v : Option (List (UVariant SchemaField))) : (SchemaField.setUnionVariants f v).discriminatorField = f.discriminatorField := by cases f; rfl

@[simp] theorem discriminatorField_setUnionTypes (f : SchemaField) (v : Option (List (FTF SchemaField))) : (SchemaField.setUnionTypes f v).discriminatorField = f.discriminatorField := by cases f; rfl

@[simp] theorem description_mk (c a2 t r o v u) : (SchemaField.mk c a2 t r o v u).description = c.description := rfl

@[simp] theorem description_base (c : FieldCore) : (SchemaField.base c).description = c.description := rfl

@[simp] theorem description_setCore (f : SchemaField) (c : FieldCore) : (f.setCore c).description = c.description := by cases f; rfl

@[simp] theorem description_setArrayItemType (f : SchemaField) (v : Option (FTF SchemaField)) : (SchemaField.setArrayItemType f v).description = f.description := by cases f; rfl

@[simp] theorem description_setTupleItems (f : SchemaField) (v : Option (List (FTF SchemaField))) : (SchemaField.setTupleItems f v).description = f.description := by cases f; rfl

@[simp] theorem description_setRecordValueType (f : SchemaField) (v : Option (FTF SchemaField)) : (SchemaField.setRecordValueType f v).description = f.description := by cases f; rfl

@[simp] theorem description_setObjectFields (f : SchemaField) (v : Option (List SchemaField)) : (SchemaField.setObjectFields f v).description = f.description := by cases f; rfl

@[simp] theorem description_setUnionVariants (f : SchemaField) (v : Option (List (UVariant SchemaField))) : (SchemaField.setUnionVariants f v).description = f.description := by cases f; rfl

@[simp] theorem description_setUnionTypes (f : SchemaField) (v : Option (List (FTF SchemaField))) : (SchemaField.setUnionTypes f v).description = f.description := by cases f; rfl

@[simp] theorem constraints_mk (c a2 t r o v u) : (SchemaField.mk c a2 t r o v u).constraints = c.constraints := rfl

@[simp] theorem constraints_base (c : FieldCore) : (SchemaField.base c).constraints = c.constraints := rfl

@[simp] theorem constraints_setCore (f : SchemaField) (c : FieldCore) : (f.setCore c).constraints = c.constraints := by cases f; rfl

@[simp] theorem constraints_setArrayItemType (f : SchemaField) (v : Option (FTF SchemaField)) : (SchemaField.setArrayItemType f v).constraints = f.constraints := by cases f; rfl

@[simp] theorem constraints_setTupleItems (f : SchemaField) (v : Option (List (FTF SchemaField))) : (SchemaField.setTupleItems f v).constraints = f.constraints := by cases f; rfl

@[simp] theorem constraints_setRecordValueType (f : SchemaField) (v : Option (FTF SchemaField)) : (SchemaField.setRecordValueType f v).constraints = f.constraints := by cases f; rfl

@[simp] theorem constraints_setObjectFields (f : SchemaField) (v : Option (List SchemaField)) : (SchemaField.setObjectFields f v).constraints = f.constraints := by cases f; rfl

@[simp] theorem constraints_setUnionVariants (f : SchemaField) (v : Option (List (UVariant SchemaField))) : (SchemaField.setUnionVariants f v).constraints = f.constraints := by cases f; rfl

@[simp] theorem constraints_setUnionTypes (f : SchemaField) (v : Option (List (FTF SchemaField))) : (SchemaField.setUnionTypes f v).constraints = f.constraints := by cases f; rfl

@[simp] theorem examples_mk (c a2 t r o v u) : (SchemaField.mk c a2 t r o v u).examples = c.examples := rfl

@[simp] theorem examples_base (c : FieldCore) : (SchemaField.base c).examples = c.examples := rfl

@[simp] theorem examples_setCore (f : SchemaField) (c : FieldCore) : (f.setCore c).examples = c.examples := by cases f; rfl

@[simp] theorem examples_setArrayItemType (f : SchemaField) (v : Option (FTF SchemaField)) : (SchemaField.setArrayItemType f v).examples = f.examples := by cases f; rfl

@[simp] theorem examples_setTupleItems (f : SchemaField) (v : Option (List (FTF SchemaField))) : (SchemaField.setTupleItems f v).examples = f.examples := by cases f; rfl

@[simp] theorem examples_setRecordValueType (f : SchemaField) (v : Option (FTF SchemaField)) : (SchemaField.setRecordValueType f v).examples = f.examples := by cases f; rfl

@[simp] theorem examples_setObjectFields (f : SchemaField) (v : Option (List SchemaField)) : (SchemaField.setObjectFields f v).examples = f.examples := by cases f; rfl

@[simp] theorem examples_setUnionVariants (f : SchemaField) (v : Option (List (UVariant SchemaField))) : (SchemaField.setUnionVariants f v).examples = f.examples := by cases f; rfl

@[simp] theorem examples_setUnionTypes (f : SchemaField) (v : Option (List (FTF SchemaField))) : (SchemaField.setUnionTypes f v).examples = f.examples := by cases f; rfl

@[simp] theorem defaultValue_mk (c a2 t r o v u) : (SchemaField.mk c a2 t r o v u).defaultValue = c.defaultValue := rfl

@[simp] theorem defaultValue_base (c : FieldCore) : (SchemaField.base c).defaultValue = c.defaultValue := rfl

@[simp] theorem defaultValue_setCore (f : SchemaField) (c : FieldCore) : (f.setCore c).defaultValue = c.defaultValue := by cases f; rfl

@[simp] theorem defaultValue_setArrayItemType (f : SchemaField) (v : Option (FTF SchemaField)) : (SchemaField.setArrayItemType f v).defaultValue = f.defaultValue := by cases f; rfl

@[simp] theorem defaultValue_setTupleItems (f : SchemaField) (v : Option (List (FTF SchemaField))) : (SchemaField.setTupleItems f v).defaultValue = f.defaultValue := by cases f; rfl

@[simp] theorem defaultValue_setRecordValueType (f : SchemaField) (v : Option (FTF SchemaField)) : (SchemaField.setRecordValueType f v).defaultValue = f.defaultValue := by cases f; rfl

@[simp] theorem defaultValue_setObjectFields (f : SchemaField) (v : Option (List SchemaField)) : (SchemaField.setObjectFields f v).defaultValue = f.defaultValue := by cases f; rfl

@[simp] theorem defaultValue_setUnionVariants (f : SchemaField) (v : Option (List (UVariant SchemaField))) : (SchemaField.setUnionVariants f v).defaultValue = f.defaultValue := by cases f; rfl

@[simp] theorem defaultValue_setUnionTypes (f : SchemaField) (v : Option (List (FTF SchemaField))) : (SchemaField.setUnionTypes f v).defaultValue = f.defaultValue := by cases f; rfl

/-! Accessor/updater commutation lemmas for `SchemaField` (all proved by
cases on the single constructor). -/

@[simp] theorem base_core (c : FieldCore) : (SchemaField.base c).core = c := rfl

@[simp] theorem base_arrayItemType (c : FieldCore) : (SchemaField.base c).arrayItemType = Option.none := rfl

@[simp] theorem base_tupleItems (c : FieldCore) : (SchemaField.base c).tupleItems = Option.none := rfl

@[simp] theorem base_recordValueType (c : FieldCore) : (SchemaField.base c).recordValueType = Option.none := rfl

@[simp] theorem base_objectFields (c : FieldCore) : (SchemaField.base c).objectFields = Option.none := rfl

@[simp] theorem base_unionVariants (c : FieldCore) : (SchemaField.base c).unionVariants = Option.none := rfl

@[simp] theorem base_unionTypes (c : FieldCore) : (SchemaField.base c).unionTypes = Option.none := rfl

@[simp] theorem setCore_core (f : SchemaField) (c : FieldCore) :
    (SchemaField.setCore f c).core = c := by cases f; rfl

@[simp] theorem setCore_arrayItemType (f : SchemaField) (c : FieldCore) :
    (SchemaField.setCore f c).arrayItemType = f.arrayItemType := by cases f; rfl

@[simp] theorem setCore_tupleItems (f : SchemaField) (c : FieldCore) :
    (SchemaField.setCore f c).tupleItems = f.tupleItems := by cases f; rfl

@[simp] theorem setCore_recordValueType (f : SchemaField) (c : FieldCore) :
    (SchemaField.setCore f c).recordValueType = f.recordValueType := by cases f; rfl

@[simp] theorem setCore_objectFields (f : SchemaField) (c : FieldCore) :
    (SchemaField.setCore f c).objectFields = f.objectFields := by cases f; rfl

@[simp] theorem setCore_unionVariants (f : SchemaField) (c : FieldCore) :
    (SchemaField.setCore f c).unionVariants = f.unionVariants := by cases f; rfl

@[simp] theorem setCore_unionTypes (f : SchemaField) (c : FieldCore) :
    (SchemaField.setCore f c).unionTypes = f.unionTypes := by cases f; rfl

@[simp] theorem setArrayItemType_core (f : SchemaField) (v : Option (FTF SchemaField)) :
    (SchemaField.setArrayItemType f v).core = f.core := by cases f; rfl

@[simp] theorem setArrayItemType_arrayItemType (f : SchemaField) (v : Option (FTF SchemaField)) :
    (SchemaField.setArrayItemType f v).arrayItemType = v := by cases f; rfl

@[simp] theorem setArrayItemType_tupleItems (f : SchemaField) (v : Option (FTF SchemaField)) :
    (SchemaField.setArrayItemType f v).tupleItems = f.tupleItems := by cases f; rfl

@[simp] theorem setArrayItemType_recordValueType (f : SchemaField) (v : Option (FTF SchemaField)) :
    (SchemaField.setArrayItemType f v).recordValueType = f.recordValueType := by cases f; rfl

@[simp] theorem setArrayItemType_objectFields (f : SchemaField) (v : Option (FTF SchemaField)) :
    (SchemaField.setArrayItemType f v).objectFields = f.objectFields := by cases f; rfl

@[simp] theorem setArrayItemType_unionVariants (f : SchemaField) (v : Option (FTF SchemaField)) :
    (SchemaField.setArrayItemType f v).unionVariants = f.unionVariants := by cases f; rfl

@[simp] theorem setArrayItemType_unionTypes (f : SchemaField) (v : Option (FTF SchemaField)) :
    (SchemaField.setArrayItemType f v).unionTypes = f.unionTypes := by cases f; rfl

@[simp] theorem setTupleItems_core (f : SchemaField) (v : Option (List (FTF SchemaField))) :
    (SchemaField.setTupleItems f v).core = f.core := by cases f; rfl

@[simp] theorem setTupleItems_arrayItemType (f : SchemaField) (v : Option (List (FTF SchemaField))) :
    (SchemaField.setTupleItems f v).arrayItemType = f.arrayItemType := by cases f; rfl

@[simp] theorem setTupleItems_tupleItems (f : SchemaField) (v : Option (List (FTF SchemaField))) :
    (SchemaField.setTupleItems f v).tupleItems = v := by cases f; rfl

@[simp] theorem setTupleItems_recordValueType (f : SchemaField) (v : Option (List (FTF SchemaField))) :
    (SchemaField.setTupleItems f v).recordValueType = f.recordValueType := by cases f; rfl

@[simp] theorem setTupleItems_objectFields (f : SchemaField) (v : Option (List (FTF SchemaField))) :
    (SchemaField.setTupleItems f v).objectFields = f.objectFields := by cases f; rfl

@[simp] theorem setTupleItems_unionVariants (f : SchemaField) (v : Option (List (FTF SchemaField))) :
    (SchemaField.setTupleItems f v).unionVariants = f.unionVariants := by cases f; rfl

@[simp] theorem setTupleItems_unionTypes (f : SchemaField) (v : Option (List (FTF SchemaField))) :
    (SchemaField.setTupleItems f v).unionTypes = f.unionTypes := by cases f; rfl

@[simp] theorem setRecordValueType_core (f : SchemaField) (v : Option (FTF SchemaField)) :
    (SchemaField.setRecordValueType f v).core = f.core := by cases f; rfl

@[simp] theorem setRecordValueType_arrayItemType (f : SchemaField) (v : Option (FTF SchemaField)) :
    (SchemaField.setRecordValueType f v).arrayItemType = f.arrayItemType := by cases f; rfl

@[simp] theorem setRecordValueType_tupleItems (f : SchemaField) (v : Option (FTF SchemaField)) :
    (SchemaField.setRecordValueType f v).tupleItems = f.tupleItems := by cases f; rfl

@[simp] theorem setRecordValueType_recordValueType (f : SchemaField) (v : Option (FTF SchemaField)) :
    (SchemaField.setRecordValueType f v).recordValueType = v := by cases f; rfl

@[simp] theorem setRecordValueType_objectFields (f : SchemaField) (v : Option (FTF SchemaField)) :
    (SchemaField.setRecordValueType f v).objectFields = f.objectFields := by cases f; rfl

@[simp] theorem setRecordValueType_unionVariants (f : SchemaField) (v : Option (FTF SchemaField)) :
    (SchemaField.setRecordValueType f v).unionVariants = f.unionVariants := by cases f; rfl

@[simp] theorem setRecordValueType_unionTypes (f : SchemaField) (v : Option (FTF SchemaField)) :
    (SchemaField.setRecordValueType f v).unionTypes = f.unionTypes := by cases f; rfl

@[simp] theorem setObjectFields_core (f : SchemaField) (v : Option (List SchemaField)) :
    (SchemaField.setObjectFields f v).core = f.core := by cases f; rfl

@[simp] theorem setObjectFields_arrayItemType (f : SchemaField) (v : Option (List SchemaField)) :
    (SchemaField.setObjectFields f v).arrayItemType = f.arrayItemType := by cases f; rfl

@[simp] theorem setObjectFields_tupleItems (f : SchemaField) (v : Option (List SchemaField)) :
    (SchemaField.setObjectFields f v).tupleItems = f.tupleItems := by cases f; rfl

@[simp] theorem setObjectFields_recordValueType (f : SchemaField) (v : Option (List SchemaField)) :
    (SchemaField.setObjectFields f v).recordValueType = f.recordValueType := by cases f; rfl

@[simp] theorem setObjectFields_objectFields (f : SchemaField) (v : Option (List SchemaField)) :
    (SchemaField.setObjectFields f v).objectFields = v := by cases f; rfl

@[simp] theorem setObjectFields_unionVariants (f : SchemaField) (v : Option (List SchemaField)) :
    (SchemaField.setObjectFields f v).unionVariants = f.unionVariants := by cases f; rfl

@[simp] theorem setObjectFields_unionTypes (f : SchemaField) (v : Option (List SchemaField)) :
    (SchemaField.setObjectFields f v).unionTypes = f.unionTypes := by cases f; rfl

@[simp] theorem setUnionVariants_core (f : SchemaField) (v : Option (List (UVariant SchemaField))) :
    (SchemaField.setUnionVariants f v).core = f.core := by cases f; rfl

@[simp] theorem setUnionVariants_arrayItemType (f : SchemaField) (v : Option (List (UVariant SchemaField))) :
    (SchemaField.setUnionVariants f v).arrayItemType = f.arrayItemType := by cases f; rfl

@[simp] theorem setUnionVariants_tupleItems (f : SchemaField) (v : Option (List (UVariant SchemaField))) :
    (SchemaField.setUnionVariants f v).tupleItems = f.tupleItems := by cases f; rfl

@[simp] theorem setUnionVariants_recordValueType (f : SchemaField) (v : Option (List (UVariant SchemaField))) :
    (SchemaField.setUnionVariants f v).recordValueType = f.recordValueType := by cases f; rfl

@[simp] theorem setUnionVariants_objectFields (f : SchemaField) (v : Option (List (UVariant SchemaField))) :
    (SchemaField.setUnionVariants f v).objectFields = f.objectFields := by cases f; rfl

@[simp] theorem setUnionVariants_unionVariants (f : SchemaField) (v : Option (List (UVariant SchemaField))) :
    (SchemaField.setUnionVariants f v).unionVariants = v := by cases f; rfl

@[simp] theorem setUnionVariants_unionTypes (f : SchemaField) (v : Option (List (UVariant SchemaField))) :
    (SchemaField.setUnionVariants f v).unionTypes = f.unionTypes := by cases f; rfl

@[simp] theorem setUnionTypes_core (f : SchemaField) (v : Option (List (FTF SchemaField))) :
    (SchemaField.setUnionTypes f v).core = f.core := by cases f; rfl

@[simp] theorem setUnionTypes_arrayItemType (f : SchemaField) (v : Option (List (FTF SchemaField))) :
    (SchemaField.setUnionTypes f v).arrayItemType = f.arrayItemType := by cases f; rfl

@[simp] theorem setUnionTypes_tupleItems (f : SchemaField) (v : Option (List (FTF SchemaField))) :
    (SchemaField.setUnionTypes f v).tupleItems = f.tupleItems := by cases f; rfl

@[simp] theorem setUnionTypes_recordValueType (f : SchemaField) (v : Option (List (FTF SchemaField))) :
    (SchemaField.setUnionTypes f v).recordValueType = f.recordValueType := by cases f; rfl

@[simp] theorem setUnionTypes_objectFields (f : SchemaField) (v : Option (List (FTF SchemaField))) :
    (SchemaField.setUnionTypes f v).objectFields = f.objectFields := by cases f; rfl

@[simp] theorem setUnionTypes_unionVariants (f : SchemaField) (v : Option (List (FTF SchemaField))) :
    (SchemaField.setUnionTypes f v).unionVariants = f.unionVariants := by cases f; rfl

@[simp] theorem setUnionTypes_unionTypes (f : SchemaField) (v : Option (List (FTF SchemaField))) :
    (SchemaField.setUnionTypes f v).unionTypes = v := by cases f; rfl


/-! Constructor-form reduction lemmas (fire only on literal nodes). -/

@[simp] theorem JsonSchema_core_mk (c p i o a al ap) : (JsonSchema.mk c p i o a al ap).core = c := rfl

@[simp] theorem JsonSchema_properties_mk (c p i o a al ap) : (JsonSchema.mk c p i o a al ap).properties = p := rfl

@[simp] theorem JsonSchema_items_mk (c p i o a al ap) : (JsonSchema.mk c p i o a al ap).items = i := rfl

@[simp] theorem JsonSchema_oneOf_mk (c p i o a al ap) : (JsonSchema.mk c p i o a al ap).oneOf = o := rfl

@[simp] theorem JsonSchema_anyOf_mk (c p i o a al ap) : (JsonSchema.mk c p i o a al ap).anyOf = a := rfl

@[simp] theorem JsonSchema_allOf_mk (c p i o a al ap) : (JsonSchema.mk c p i o a al ap).allOf = al := rfl

@[simp] theorem JsonSchema_addProps_mk (c p i o a al ap) : (JsonSchema.mk c p i o a al ap).addProps = ap := rfl

@[simp] theorem JsonSchema_typeF_mk (c p i o a al ap) : (JsonSchema.mk c p i o a al ap).typeF = c.typeF := rfl

@[simp] theorem SchemaField_core_mk (c a t r o v u) : (SchemaField.mk c a t r o v u).core = c := rfl

@[simp] theorem SchemaField_arrayItemType_mk (c a t r o v u) : (SchemaField.mk c a t r o v u).arrayItemType = a := rfl

@[simp] theorem SchemaField_tupleItems_mk (c a t r o v u) : (SchemaField.mk c a t r o v u).tupleItems = t := rfl

@[simp] theorem SchemaField_recordValueType_mk (c a t r o v u) : (SchemaField.mk c a t r o v u).recordValueType = r := rfl

@[simp] theorem SchemaField_objectFields_mk (c a t r o v u) : (SchemaField.mk c a t r o v u).objectFields = o := rfl

@[simp] theorem SchemaField_unionVariants_mk (c a t r o v u) : (SchemaField.mk c a t r o v u).unionVariants = v := rfl

@[simp] theorem SchemaField_unionTypes_mk (c a t r o v u) : (SchemaField.mk c a t r o v u).unionTypes = u := rfl

@[simp] theorem truthyStr_none : truthyStr Option.none = false := rfl

@[simp] theorem truthyStr_some (s : String) : truthyStr (Option.some s) = decide (s ≠ "") := rfl

@[simp] theorem JAddProps_truthy_absent : JAddProps.truthy JAddProps.absent = false := rfl

@[simp] theorem JAddProps_truthy_abool (b : Bool) : JAddProps.truthy (JAddProps.abool b) = b := rfl

@[simp] theorem JAddProps_truthy_aschema (s : JsonSchema) : JAddProps.truthy (JAddProps.aschema s) = true := rfl

@[simp] theorem JAddProps_asSchema_absent : JAddProps.asSchema JAddProps.absent = emptySchema := rfl

@[simp] theorem JAddProps_asSchema_abool (b : Bool) : JAddProps.asSchema (JAddProps.abool b) = emptySchema := rfl

@[simp] theorem JAddProps_asSchema_aschema (s : JsonSchema) : JAddProps.asSchema (JAddProps.aschema s) = s := rfl

@[simp] theorem JItems_truthy_absent : JItems.truthy JItems.absent = false := rfl

@[simp] theorem JItems_truthy_single (s : JsonSchema) : JItems.truthy (JItems.single s) = true := rfl

@[simp] theorem JItems_truthy_list (l : List JsonSchema) : JItems.truthy (JItems.list l) = true := rfl


/-! ### Helpers for the recursive extraction -/

/-- `List.map` carrying a membership proof (used so that recursive calls on
list members are visibly on structurally smaller schemas).  The proof is
never used by the mapped function's result. -/
def mapMem : (l : List α) → ((a : α) → a ∈ l → β) → List β
  | [], _ => []
  | x :: xs, f =>
    f x (List.mem_cons_self x xs) :: mapMem xs (fun a h => f a (List.mem_cons_of_mem x h))

/-- `List.filterMap` carrying a membership proof. -/
def filterMapMem : (l : List α) → ((a : α) → a ∈ l → Option β) → List β
  | [], _ => []
  | x :: xs, f =>
    match f x (List.mem_cons_self x xs) with
    | Option.some b => b :: filterMapMem xs (fun a h => f a (List.mem_cons_of_mem x h))
    | Option.none => filterMapMem xs (fun a h => f a (List.mem_cons_of_mem x h))

theorem mapMem_eq_map (l : List α) (g : α → β) :
    mapMem l (fun a _ => g a) = l.map g := by
  induction l with
  | nil => rfl
  | cons x xs ih => simp [mapMem, ih]

theorem filterMapMem_eq_filterMap (l : List α) (g : α → Option β) :
    filterMapMem l (fun a _ => g a) = l.filterMap g := by
  induction l with
  | nil => rfl
  | cons x xs ih =>
    rw [List.filterMap_cons]
    cases hg : g x with
    | none => simp only [filterMapMem, hg, ih]
    | some b => simp only [filterMapMem, hg, ih]

/-- `schema.oneOf || schema.anyOf || []`. -/
def unionBranches (s : JsonSchema) : List JsonSchema :=
  match s.oneOf with
  | Option.some l => l
  | Option.none =>
    match s.anyOf with
    | Option.some l => l
    | Option.none => []

theorem schemaSize_lt_of_mem_unionBranches {s v : JsonSchema}
    (h : v ∈ unionBranches s) : schemaSize v < schemaSize s := by
  rw [unionBranches] at h
  cases ho : s.oneOf with
  | some l =>
    rw [ho] at h
    exact schemaSize_lt_of_mem_oneOf ho h
  | none =>
    rw [ho] at h
    cases ha : s.anyOf with
    | some l =>
      rw [ha] at h
      exact schemaSize_lt_of_mem_anyOf ha h
    | none => rw [ha] at h; cases h

theorem schemaSize_lt_of_mem_properties2 {s : JsonSchema} {p : String × JsonSchema}
    {props : List (String × JsonSchema)}
    (hp : s.properties = Option.some props) (h : p ∈ props) :
    schemaSize p.2 < schemaSize s := by
  cases p with
  | mk n fs => exact schemaSize_lt_of_mem_properties hp h

/-- Extraction options (`{maxDepth?, includeDefaults?}`). -/
structure ExtractOptions : Type where
  maxDepth : Option Nat := Option.none
  includeDefaults : Option Bool := Option.none
deriving Repr, DecidableEq

/-- The effective depth bound `options.maxDepth || 3`: an absent *or zero*
`maxDepth` falls back to 3 (JS `||` treats 0 as falsy). -/
def effMaxDepth (o : ExtractOptions) : Nat :=
  match o.maxDepth with
  | Option.some d => if d = 0 then 3 else d
  | Option.none => 3

/-- `typeof itemSchema.type === 'string' && itemSchema.type` (a present,
non-empty string). -/
def truthySingleType (t : TypeField) : Bool :=
  match t with
  | TypeField.str s => s ≠ ""
  | _ => false

/-- `Array.isArray(schema.items)`. -/
def JItems.isArr : JItems JsonSchema → Bool
  | JItems.list _ => true
  | _ => false

/-- Result record of `extractUnionData`. -/
structure UnionData : Type where
  isDiscriminated : Bool
  variants : Option (List (UVariant SchemaField)) := Option.none
  discriminatorField : Option String := Option.none
  types : List String
  unionTypes : Option (List (FTF SchemaField)) := Option.none

/-- Comparator of src extractObjectFields (`fields.sort(...)`) as a boolean
"may precede" relation: `fieldSortLe a b` iff the source comparator returns
`≤ 0` on `(a, b)`.  `Array.prototype.sort` is stable (ES2019), so the sort
is modelled as a stable merge sort under this relation. -/
def fieldSortLe (a b : SchemaField) : Bool :=
  if truthyStr a.discriminatorField ∧ ¬ truthyStr b.discriminatorField then true
  else if ¬ truthyStr a.discriminatorField ∧ truthyStr b.discriminatorField then false
  else if a.isRequired ∧ ¬ b.isRequired then true
  else if ¬ a.isRequired ∧ b.isRequired then false
  else true

@[simp] theorem JItems_isArr_absent : JItems.isArr JItems.absent = false := rfl

@[simp] theorem JItems_isArr_single (s : JsonSchema) : JItems.isArr (JItems.single s) = false := rfl

@[simp] theorem JItems_isArr_list (l : List JsonSchema) : JItems.isArr (JItems.list l) = true := rfl

@[simp] theorem mapMem_nil (f : (a : α) → a ∈ ([] : List α) → β) : mapMem [] f = [] := rfl

@[simp] theorem mapMem_cons (x : α) (xs : List α) (f : (a : α) → a ∈ x :: xs → β) :
    mapMem (x :: xs) f =
      f x (List.mem_cons_self x xs) :: mapMem xs (fun a h => f a (List.mem_cons_of_mem x h)) := rfl

/-! ### The recursive extraction core -/

/-- Steps 1-4 of src extractField: capture description/examples before
unwrapping, unwrap nullability, classify the provisional type, and attach
constraints and tagged examples. -/
def extractFieldBase (name : String) (schema : JsonSchema) (isRequired : Bool) : SchemaField :=
  -- Preserve top-level properties before unwrapping
  let topLevelDescription := schema.core.description
  let topLevelExamples := schema.core.examples
  -- Handle nullable types
  let u := unwrapNullable schema
  let actualSchema := u.actualSchema
  let field := SchemaField.base
    { name := name
      type := detectFieldType actualSchema
      isRequired := isRequired
      isNullable := Option.some u.isNullable
      description := orTruthyStr topLevelDescription actualSchema.core.description }
  -- Extract constraints
  let field := field.setConstraints (Option.some (extractConstraints actualSchema))
  -- Extract examples (prefer top-level, fall back to unwrapped schema)
  let examples := orTruthyList topLevelExamples actualSchema.core.examples
  let badExamples := orTruthyList schema.core.badExamples actualSchema.core.badExamples
  let allExamples : List FieldExample :=
    (match examples with
     | Option.some l => l.map (fun v => ⟨v, true, Option.none⟩)
     | Option.none => []) ++
    (match badExamples with
     | Option.some l => l.map (fun v => ⟨v, false, Option.none⟩)
     | Option.none => [])
  if allExamples.length > 0 then field.setExamples (Option.some allExamples) else field

mutual

/-- The type-specific refinement chain of src extractField (the long
`else if` ladder of step 5, factored out of `extractField` so that the two
pieces can be reasoned about separately; `field` is the record built by the
preceding steps and `actualSchema` the nullability-unwrapped node). -/
def extractFieldRefine (name : String) (field : SchemaField) (actualSchema : JsonSchema)
    (options : ExtractOptions) (depth : Nat) : SchemaField :=
  match actualSchema.core.enumF with
  | Option.some vs =>
    (field.setType "enum").setEnumValues (Option.some (vs.map jsToString))
  | Option.none =>
    match actualSchema.core.constF with
    | Option.some c =>
      -- Discriminator field
      ((field.setType "enum").setEnumValues
        (Option.some [jsToString c])).setDiscriminatorField (Option.some name)
    | Option.none =>
      if field.type = "record" ∧ actualSchema.addProps.truthy then
        -- Extract record key/value types; records always have string keys
        let valueSchema := actualSchema.addProps.asSchema
        let rvt : FTF SchemaField :=
          if valueSchema.properties.isSome then
            -- Complex object value
            FTF.fld ((SchemaField.base
              { name := "value", type := "object", isRequired := true }).setObjectFields
              (Option.some (extractObjectFields valueSchema options (depth + 1))))
          else if truthySingleType valueSchema.typeF then
            -- Simple type value
            match valueSchema.typeF with
            | TypeField.str t => FTF.ft t
            | _ => FTF.ft "any"
          else FTF.ft "any"
        (field.setRecordKeyType (Option.some "string")).setRecordValueType (Option.some rvt)
      else if field.type = "object" ∧ depth < effMaxDepth options then
        if actualSchema.properties.isSome then
          field.setObjectFields
            (Option.some (extractObjectFields actualSchema options (depth + 1)))
        else field
      else if field.type = "tuple" ∧ actualSchema.items.isArr then
        -- Extract tuple items
        match hit : actualSchema.items with
        | JItems.list l =>
          field.setTupleItems
            (Option.some (mapMem l (fun item hm => extractArrayItemType item options depth)))
        | _ => field
      else if field.type = "array" ∧ actualSchema.items.truthy then
        match hit : actualSchema.items with
        | JItems.single s =>
          field.setArrayItemType (Option.some (extractArrayItemType s options depth))
        | _ =>
          -- an array-valued `items` here reads as a schema with every key
          -- absent, which extractArrayItemType maps to 'any'
          field.setArrayItemType (Option.some (FTF.ft "any"))
      else if typeIsMultiArr actualSchema.typeF then
        -- Handle type arrays (union of primitives like ["string", "number"])
        match actualSchema.typeF with
        | TypeField.arr ts => (field.setType "union").setUnionTypes (Option.some (ts.map FTF.ft))
        | _ => field
      else if (actualSchema.oneOf.isSome ∨ actualSchema.anyOf.isSome) ∧
          depth < effMaxDepth options then
        let unionData := extractUnionData actualSchema options depth
        if unionData.isDiscriminated then
          ((field.setType "discriminated-union").setUnionVariants
            unionData.variants).setDiscriminatorField unionData.discriminatorField
        else
          -- For simple unions, describe the types
          ((field.setType "union").setUnionTypes unionData.unionTypes).setDescription
            (Option.some ("Union of " ++ String.intercalate ", " unionData.types))
      else field
termination_by schemaSize actualSchema * 16 + 8
decreasing_by
  all_goals
    first
    | (have h2 : schemaSize (actualSchema.addProps.asSchema) ≤ schemaSize actualSchema :=
         schemaSize_asSchema_le actualSchema
       omega)
    | (have h2 : schemaSize item < schemaSize actualSchema :=
         schemaSize_lt_of_mem_items_list hit hm
       omega)
    | (have h2 : schemaSize s < schemaSize actualSchema :=
         schemaSize_lt_of_items_single hit
       omega)
    | omega

/-- src extractField (src/unnamed/part_004): the core recursive procedure
producing one `SchemaField` from one named schema node.  Steps 1-4 (capture
metadata, unwrap nullability, classify, constraints/examples) live in the
non-recursive `extractFieldBase`, step 5 (the type-specific `else if`
ladder) in `extractFieldRefine`, and step 6 (default attachment) here. -/
def extractField (name : String) (schema : JsonSchema) (isRequired : Bool)
    (options : ExtractOptions) (depth : Nat) : SchemaField :=
  let actualSchema := (unwrapNullable schema).actualSchema
  -- Extract type-specific properties
  let field :=
    extractFieldRefine name (extractFieldBase name schema isRequired) actualSchema options depth
  -- Extract default value if requested
  if options.includeDefaults = Option.some true ∧ actualSchema.core.defaultF.isSome then
    field.setDefaultValue actualSchema.core.defaultF
  else field
termination_by schemaSize schema * 16 + 9
decreasing_by
  all_goals
    (have h1 : schemaSize (unwrapNullable schema).actualSchema ≤ schemaSize schema :=
       schemaSize_unwrapNullable_le schema
     omega)

/-- src extractObjectFields (src/unnamed/part_003): one field per property,
then the discriminator/required/optional sort. -/
def extractObjectFields (schema : JsonSchema) (options : ExtractOptions) (depth : Nat) :
    List SchemaField :=
  let required := schema.core.requiredF.getD []
  let fields : List SchemaField :=
    match hp : schema.properties with
    | Option.some props =>
      mapMem props (fun p hm => extractField p.1 p.2 (required.contains p.1) options depth)
    | Option.none => []
  -- Sort: discriminator fields first, then required, then optional
  fields.mergeSort fieldSortLe
termination_by schemaSize schema * 16 + 2
decreasing_by
  all_goals
    (have h2 : schemaSize p.2 < schemaSize schema :=
       schemaSize_lt_of_mem_properties2 hp hm
     omega)

/-- src extractUnionData (src/unnamed/part_003): discriminated-vs-plain
union resolution over `oneOf || anyOf || []`. -/
def extractUnionData (schema : JsonSchema) (options : ExtractOptions) (depth : Nat) : UnionData :=
  let variants := unionBranches schema
  -- Check for discriminated union
  match findDiscriminator variants with
  | Option.some discriminatorField =>
    let unionVariants : List (UVariant SchemaField) :=
      filterMapMem variants (fun variant hm =>
        match constOfProp variant discriminatorField with
        | Option.some discriminatorValue =>
          Option.some ⟨jsToString discriminatorValue,
            extractObjectFields variant options (depth + 1)⟩
        | Option.none => Option.none)
    { isDiscriminated := true, variants := Option.some unionVariants,
      discriminatorField := Option.some discriminatorField, types := [] }
  | Option.none =>
    -- Non-discriminated union: collect both type names and actual types
    let pairs : List (String × FTF SchemaField) :=
      mapMem variants (fun variant hm =>
        let typeName := getVariantType variant
        let ut : FTF SchemaField :=
          -- Check for enum FIRST, as it may also have type: "string"
          if variant.core.enumF.isSome then
            FTF.fld (SchemaField.base
              { name := "variant", type := "enum", isRequired := true,
                enumValues := Option.some ((variant.core.enumF.getD []).map jsToString) })
          else if variant.properties.isSome then
            -- Complex object - extract as SchemaField
            FTF.fld ((SchemaField.base
              { name := "variant", type := "object", isRequired := true }).setObjectFields
              (Option.some (extractObjectFields variant options (depth + 1))))
          else if truthySingleType variant.typeF then
            -- Simple primitive type
            match variant.typeF with
            | TypeField.str t => FTF.ft t
            | _ => FTF.ft "any"
          else FTF.ft "any"
        (typeName, ut))
    { isDiscriminated := false, types := pairs.map Prod.fst,
      unionTypes := Option.some (pairs.map Prod.snd) }
termination_by schemaSize schema * 16 + 0
decreasing_by
  all_goals
    (have h2 : schemaSize variant < schemaSize schema :=
       schemaSize_lt_of_mem_unionBranches hm
     omega)

/-- src extractUnionField (src/unnamed/part_004). -/
def extractUnionField (name : String) (schema : JsonSchema) (isRequired : Bool)
    (options : ExtractOptions) (depth : Nat) : SchemaField :=
  let unionData := extractUnionData schema options depth
  if unionData.isDiscriminated then
    ((SchemaField.base
      { name := name, type := "discriminated-union", isRequired := isRequired }).setUnionVariants
      unionData.variants).setDiscriminatorField unionData.discriminatorField
  else
    ((SchemaField.base
      { name := name, type := "union", isRequired := isRequired }).setUnionTypes
      unionData.unionTypes).setDescription
      (Option.some ("Union of " ++ String.intercalate ", " unionData.types))
termination_by schemaSize schema * 16 + 4
decreasing_by
  all_goals omega

/-- src/extractors/extractArrayItemType.ts. -/
def extractArrayItemType (itemSchema : JsonSchema) (options : ExtractOptions) (depth : Nat) :
    FTF SchemaField :=
  -- Handle union types first - check if it contains an enum
  if itemSchema.oneOf.isSome ∨ itemSchema.anyOf.isSome then
    let unionField := extractUnionField "item" itemSchema true options (depth + 1)
    let viaEnum : Option (FTF SchemaField) :=
      if unionField.type = "union" ∧ unionField.unionTypes.isSome then
        match (unionField.unionTypes.getD []).find? (fun t =>
          match t with
          | FTF.fld f => f.type = "enum" ∧ f.enumValues.isSome
          | FTF.ft _ => false) with
        | Option.some (FTF.fld enumVariant) =>
          -- Return the enum variant so it displays prominently
          Option.some (FTF.fld (SchemaField.base
            { name := "item", type := "enum", enumValues := enumVariant.enumValues,
              isRequired := true }))
        | _ => Option.none
      else Option.none
    match viaEnum with
    | Option.some r => r
    | Option.none => FTF.fld unionField
  -- Simple types
  else if truthySingleType itemSchema.typeF ∧ itemSchema.properties.isNone then
    match itemSchema.core.enumF with
    | Option.some vs =>
      FTF.fld (SchemaField.base
        { name := "item", type := "enum", enumValues := Option.some (vs.map jsToString),
          isRequired := true })
    | Option.none =>
      match itemSchema.typeF with
      | TypeField.str t => FTF.ft t
      | _ => FTF.ft "any"
  -- Complex types - return full SchemaField
  else if itemSchema.typeF = TypeField.str "object" ∨ itemSchema.properties.isSome then
    FTF.fld ((SchemaField.base
      { name := "item", type := "object", isRequired := true }).setObjectFields
      (Option.some (extractObjectFields itemSchema options (depth + 1))))
  else FTF.ft "any"
termination_by schemaSize itemSchema * 16 + 6
decreasing_by
  all_goals omega

end

/-- src/extractors/extractArrayField.ts. -/
def extractArrayField (name : String) (schema : JsonSchema) (isRequired : Bool)
    (options : ExtractOptions) (depth : Nat) : SchemaField :=
  let field := SchemaField.base
    { name := name, type := "array", isRequired := isRequired,
      description := schema.core.description }
  let field := field.setConstraints (Option.some (extractConstraints schema))
  match schema.items with
  | JItems.single s =>
    field.setArrayItemType (Option.some (extractArrayItemType s options depth))
  | JItems.list _ =>
    -- an array-valued `items` reads as a schema with every key absent,
    -- which extractArrayItemType maps to 'any'
    field.setArrayItemType (Option.some (FTF.ft "any"))
  | JItems.absent => field

/-- Document-level metadata of a `SchemaModel`. -/
structure ModelMetadata : Type where
  title : Option String := Option.none
  description : Option String := Option.none
  version : Option String := Option.none
  examples : Option (List JsonValue) := Option.none

/-- The root container produced by extraction. -/
structure SchemaModel : Type where
  fields : List SchemaField
  metadata : Option ModelMetadata := Option.none

/-- The module-level `OPTIONS` default of extractToModel.ts. -/
def OPTIONS : ExtractOptions :=
  { maxDepth := Option.some 3, includeDefaults := Option.some false }

/-- `{...OPTIONS, ...options}`: per-key merge, the caller's present keys
winning. -/
def mergeOptions (options : Option ExtractOptions) : ExtractOptions :=
  match options with
  | Option.none => OPTIONS
  | Option.some o =>
    { maxDepth := o.maxDepth.orElse (fun _ => OPTIONS.maxDepth),
      includeDefaults := o.includeDefaults.orElse (fun _ => OPTIONS.includeDefaults) }

/-- src/extractors/extractToModel.ts: root dispatch. -/
def extractToModel (schema : JsonSchema) (options : Option ExtractOptions) : SchemaModel :=
  let opts := mergeOptions options
  let metadata : ModelMetadata :=
    { title := schema.core.title, description := schema.core.description,
      examples := schema.core.examples }
  -- Extract root-level fields
  let fields : List SchemaField :=
    if schema.typeF = TypeField.str "object" ∧ schema.properties.isSome then
      extractObjectFields schema opts 0
    else if schema.typeF = TypeField.str "array" ∧ schema.items.truthy then
      -- Root array
      [extractArrayField "root" schema true opts 0]
    else if schema.oneOf.isSome ∨ schema.anyOf.isSome then
      -- Root union
      [extractUnionField "root" schema true opts 0]
    else
      -- Primitive root
      [extractField "root" schema true opts 0]
  { fields := fields, metadata := Option.some metadata }

/-! ### Rendering: structural measure on extracted fields -/

mutual

def fieldSize : SchemaField → Nat
  | SchemaField.mk _ a t r o v u =>
    1 + sizeOptFTF a + sizeOptFTFList t + sizeOptFTF r + sizeOptFields o
      + sizeOptVariants v + sizeOptFTFList u

def sizeFTF : FTF SchemaField → Nat
  | FTF.ft _ => 0
  | FTF.fld f => fieldSize f + 1

def sizeOptFTF : Option (FTF SchemaField) → Nat
  | Option.none => 0
  | Option.some x => sizeFTF x + 1

def sizeFTFList : List (FTF SchemaField) → Nat
  | [] => 0
  | x :: xs => sizeFTF x + sizeFTFList xs + 1

def sizeOptFTFList : Option (List (FTF SchemaField)) → Nat
  | Option.none => 0
  | Option.some l => sizeFTFList l + 1

def sizeFields : List SchemaField → Nat
  | [] => 0
  | f :: fs => fieldSize f + sizeFields fs + 1

def sizeOptFields : Option (List SchemaField) → Nat
  | Option.none => 0
  | Option.some l => sizeFields l + 1

def sizeVariant : UVariant SchemaField → Nat
  | UVariant.mk _ fs => sizeFields fs + 1

def sizeVariantList : List (UVariant SchemaField) → Nat
  | [] => 0
  | v :: vs => sizeVariant v + sizeVariantList vs + 1

def sizeOptVariants : Option (List (UVariant SchemaField)) → Nat
  | Option.none => 0
  | Option.some l => sizeVariantList l + 1

end

theorem fieldSize_lt_sizeFields {f : SchemaField} {l : List SchemaField}
    (h : f ∈ l) : fieldSize f < sizeFields l := by
  induction l with
  | nil => cases h
  | cons x xs ih =>
    rw [sizeFields]
    rcases List.mem_cons.mp h with h1 | h2
    · subst h1; omega
    · have := ih h2; omega

theorem sizeVariant_lt_sizeVariantList {v : UVariant SchemaField}
    {l : List (UVariant SchemaField)} (h : v ∈ l) : sizeVariant v < sizeVariantList l := by
  induction l with
  | nil => cases h
  | cons x xs ih =>
    rw [sizeVariantList]
    rcases List.mem_cons.mp h with h1 | h2
    · subst h1; omega
    · have := ih h2; omega

theorem sizeFTF_lt_sizeFTFList {x : FTF SchemaField} {l : List (FTF SchemaField)}
    (h : x ∈ l) : sizeFTF x < sizeFTFList l := by
  induction l with
  | nil => cases h
  | cons y ys ih =>
    rw [sizeFTFList]
    rcases List.mem_cons.mp h with h1 | h2
    · subst h1; omega
    · have := ih h2; omega

theorem fieldSize_lt_of_mem_objectFields {f n : SchemaField} {l : List SchemaField}
    (ho : f.objectFields = Option.some l) (h : n ∈ l) : fieldSize n < fieldSize f := by
  cases f with
  | mk c a t r o v u =>
    rw [SchemaField.objectFields] at ho
    subst ho
    rw [fieldSize, sizeOptFields]
    have := fieldSize_lt_sizeFields h
    omega

theorem sizeVariant_lt_of_mem_unionVariants {f : SchemaField} {v : UVariant SchemaField}
    {l : List (UVariant SchemaField)}
    (hv : f.unionVariants = Option.some l) (h : v ∈ l) : sizeVariant v < fieldSize f := by
  cases f with
  | mk c a t r o vv u =>
    rw [SchemaField.unionVariants] at hv
    subst hv
    rw [fieldSize, sizeOptVariants]
    have := sizeVariant_lt_sizeVariantList h
    omega

theorem fieldSize_lt_of_mem_variantFields {v : UVariant SchemaField} {f : SchemaField}
    (h : f ∈ v.fields) : fieldSize f < sizeVariant v := by
  cases v with
  | mk dv fs =>
    rw [sizeVariant]
    have h2 : fieldSize f < sizeFields fs := fieldSize_lt_sizeFields h
    omega

theorem fieldSize_lt_of_arrayItemType {f g : SchemaField}
    (h : f.arrayItemType = Option.some (FTF.fld g)) : fieldSize g < fieldSize f := by
  cases f with
  | mk c a t r o v u =>
    rw [SchemaField.arrayItemType] at h
    subst h
    rw [fieldSize, sizeOptFTF, sizeFTF]
    omega

theorem fieldSize_lt_of_recordValueType {f g : SchemaField}
    (h : f.recordValueType = Option.some (FTF.fld g)) : fieldSize g < fieldSize f := by
  cases f with
  | mk c a t r o v u =>
    rw [SchemaField.recordValueType] at h
    subst h
    rw [fieldSize, sizeOptFTF, sizeFTF]
    omega

theorem fieldSize_lt_of_mem_tupleItems {f g : SchemaField} {l : List (FTF SchemaField)}
    (ht : f.tupleItems = Option.some l) (h : FTF.fld g ∈ l) : fieldSize g < fieldSize f := by
  cases f with
  | mk c a t r o v u =>
    rw [SchemaField.tupleItems] at ht
    subst ht
    rw [fieldSize, sizeOptFTFList]
    have h1 := sizeFTF_lt_sizeFTFList h
    rw [sizeFTF] at h1
    omega

theorem fieldSize_lt_of_mem_unionTypes {f g : SchemaField} {l : List (FTF SchemaField)}
    (ht : f.unionTypes = Option.some l) (h : FTF.fld g ∈ l) : fieldSize g < fieldSize f := by
  cases f with
  | mk c a t r o v u =>
    rw [SchemaField.unionTypes] at ht
    subst ht
    rw [fieldSize, sizeOptFTFList]
    have h1 := sizeFTF_lt_sizeFTFList h
    rw [sizeFTF] at h1
    omega

/-! ### Rendering: shared theme machinery (formatters/types.ts) -/

/-- Options passed to a theme (`ThemeOptions`). -/
structure ThemeOptions : Type where
  indentSize : Option Nat := Option.none
  maxLineWidth : Option Nat := Option.none
deriving Repr, DecidableEq

/-- Options of `formatModel` (`ThemeFormatOptions`). -/
structure ThemeFormatOptions : Type where
  style : Option String := Option.none
  indentSize : Option Nat := Option.none
deriving Repr, DecidableEq

/-- `BaseTheme.indent`: `' '.repeat(depth * size)` with
`size = options?.indentSize ?? 2`. -/
def themeIndent (depth : Nat) (options : Option ThemeOptions) : String :=
  let size := (options.bind (fun o => o.indentSize)).getD 2
  String.mk (List.replicate (depth * size) ' ')

/-- `BaseTheme.formatModifiers` (with its default `includeRequired = true`
made explicit). -/
def formatModifiers (field : SchemaField) (includeRequired : Bool) : List String :=
  (if includeRequired ∧ field.isRequired then ["required"] else []) ++
  (if field.isNullable = Option.some true then ["nullable"] else []) ++
  (match field.constraints with
   | Option.some cs =>
     cs.map (fun c =>
       if truthyStr c.display then c.display.getD ""
       else c.ctype ++ ": " ++ jsToString c.value)
   | Option.none => [])

/-- `getModifiersString` (identical private helper of the standard and
expanded themes). -/
def getModifiersString (field : SchemaField) : String :=
  let modifiers := formatModifiers field true
  if modifiers.length > 0 then " (" ++ String.intercalate " • " modifiers ++ ")" else ""

/-- `getPluralType` (identical in standard and expanded themes). -/
def getPluralType (t : String) : String :=
  if t = "string" then "strings"
  else if t = "number" then "numbers"
  else if t = "integer" then "integers"
  else if t = "boolean" then "booleans"
  else if t = "object" then "objects"
  else if t = "array" then "arrays"
  else if t = "any" then "any"
  else t

/-- `typeof t === 'string' ? t : t.type` on a `FieldType | SchemaField`. -/
def ftfTypeName : FTF SchemaField → String
  | FTF.ft t => t
  | FTF.fld f => f.type

/-- JS truthiness of an optional `FieldType | SchemaField` (an empty type
string is falsy). -/
def ftfTruthy : Option (FTF SchemaField) → Bool
  | Option.some (FTF.ft t) => t ≠ ""
  | Option.some (FTF.fld _) => true
  | Option.none => false

/-- `typeof x === 'object'` on an optional `FieldType | SchemaField`. -/
def ftfIsObj : Option (FTF SchemaField) → Bool
  | Option.some (FTF.fld _) => true
  | _ => false

/-! ### Standard theme (formatters/themes/standard-theme.ts) -/

/-- `field.recordValueType` is an object carrying a truthy `objectFields`. -/
def rvtHasObjFields : Option (FTF SchemaField) → Bool
  | Option.some (FTF.fld rv) => rv.objectFields.isSome
  | _ => false

/-- StandardTheme.getTypeRepresentation. -/
def stdGetTypeRepresentation (field : SchemaField) : String :=
  -- Handle enum
  if field.type = "enum" ∧ field.enumValues.isSome then
    let evs := field.enumValues.getD []
    if evs.length = 1 then evs.headD ""
    else "MUST BE ONE OF [" ++ String.intercalate " | " evs ++ "]"
  -- Handle union
  else if field.type = "union" ∧ field.unionTypes.isSome then
    String.intercalate " | " ((field.unionTypes.getD []).map ftfTypeName)
  -- Handle tuple
  else if field.type = "tuple" ∧ field.tupleItems.isSome then
    "[" ++ String.intercalate ", " ((field.tupleItems.getD []).map ftfTypeName) ++ "]"
  -- Handle record
  else if field.type = "record" ∧ truthyStr field.recordKeyType ∧ ftfTruthy field.recordValueType then
    let valueType :=
      match field.recordValueType with
      | Option.some (FTF.ft t) => t
      | Option.some (FTF.fld f) => f.type
      | Option.none => ""
    "Record<" ++ field.recordKeyType.getD "" ++ ", " ++ valueType ++ ">"
  -- Handle array
  else if field.type = "array" then
    match field.arrayItemType with
    | Option.some (FTF.ft t) => "array of " ++ getPluralType t
    | Option.some (FTF.fld itemField) =>
      if itemField.type = "enum" ∧ itemField.enumValues.isSome then
        "array where EACH item MUST BE ONE OF ["
          ++ String.intercalate ", " (itemField.enumValues.getD []) ++ "]"
      else if itemField.type = "object" then "array of objects"
      else if itemField.type = "discriminated-union" ∧ truthyStr itemField.discriminatorField then
        "array of objects (" ++ itemField.discriminatorField.getD "" ++ " as discriminator)"
      else "array"
    | Option.none => "array"
  -- Handle other types
  else if field.type = "discriminated-union" then "union"
  else field.type

mutual

/-- StandardTheme.formatField. -/
def standardFormatField (field : SchemaField) (depth : Nat) (options : Option ThemeOptions) :
    String :=
  let indent := themeIndent depth options
  if field.type = "discriminated-union" ∧ field.unionVariants.isSome then
    -- Handle discriminated unions: discriminator line with all values first
    match hv : field.unionVariants with
    | Option.some uvs =>
      let discriminatorValues := String.intercalate " | " (uvs.map (fun v => v.discriminatorValue))
      let discriminatorName :=
        if truthyStr field.discriminatorField then field.discriminatorField.getD "" else "type"
      let modifiers := getModifiersString field
      (indent ++ "- " ++ field.name ++ ": array of objects" ++ modifiers ++ "\n")
        ++ (indent ++ "  - " ++ discriminatorName ++ ": " ++ discriminatorValues ++ " (required)\n")
        ++ String.join (mapMem uvs (fun v hm => standardFormatVariant v field.name (depth + 2) options))
    | Option.none => ""
  else
    -- Format regular field
    let typeRep := stdGetTypeRepresentation field
    let modifiers := getModifiersString field
    let head := indent ++ "- " ++ field.name ++ ": " ++ typeRep ++ modifiers ++ "\n"
    let nested :=
      if field.objectFields.isSome then
        match ho : field.objectFields with
        | Option.some nf =>
          String.join (mapMem nf (fun n hm => standardFormatField n (depth + 1) options))
        | Option.none => ""
      else if field.type = "record" ∧ rvtHasObjFields field.recordValueType then
        -- Show record value structure
        match hr : field.recordValueType with
        | Option.some (FTF.fld rv) =>
          match hro : rv.objectFields with
          | Option.some nf =>
            String.join (mapMem nf (fun n hm => standardFormatField n (depth + 1) options))
          | Option.none => ""
        | _ => ""
      else if field.type = "array" ∧ ftfIsObj field.arrayItemType then
        match ha : field.arrayItemType with
        | Option.some (FTF.fld itemField) =>
          if itemField.objectFields.isSome then
            match hio : itemField.objectFields with
            | Option.some nf =>
              String.join (mapMem nf (fun n hm => standardFormatField n (depth + 1) options))
            | Option.none => ""
          else if itemField.unionVariants.isSome ∧ itemField.type = "discriminated-union" then
            -- Array of discriminated unions: discriminator values upfront
            match hiv : itemField.unionVariants with
            | Option.some uvs =>
              let discriminatorValues :=
                String.intercalate " | " (uvs.map (fun v => v.discriminatorValue))
              let discriminatorName :=
                if truthyStr itemField.discriminatorField then
                  itemField.discriminatorField.getD "" else "type"
              (indent ++ "  - " ++ discriminatorName ++ ": " ++ discriminatorValues
                  ++ " (required)\n")
                ++ String.join (mapMem uvs (fun v hm =>
                    standardFormatVariant v field.name (depth + 2) options))
            | Option.none => ""
          else if itemField.unionVariants.isSome then
            match hiv : itemField.unionVariants with
            | Option.some uvs =>
              String.join (mapMem uvs (fun v hm =>
                standardFormatVariant v field.name (depth + 1) options))
            | Option.none => ""
          else ""
        | _ => ""
      else ""
    head ++ nested
termination_by fieldSize field
decreasing_by
  all_goals
    first
    | (have h1 : sizeVariant v < fieldSize field := sizeVariant_lt_of_mem_unionVariants hv hm
       omega)
    | (have h1 : fieldSize n < fieldSize field := fieldSize_lt_of_mem_objectFields ho hm
       omega)
    | (have h1 : fieldSize rv < fieldSize field := fieldSize_lt_of_recordValueType hr
       have h2 : fieldSize n < fieldSize rv := fieldSize_lt_of_mem_objectFields hro hm
       omega)
    | (have h1 : fieldSize itemField < fieldSize field := fieldSize_lt_of_arrayItemType ha
       first
       | (have h2 : fieldSize n < fieldSize itemField := fieldSize_lt_of_mem_objectFields hio hm
          omega)
       | (have h2 : sizeVariant v < fieldSize itemField :=
            sizeVariant_lt_of_mem_unionVariants hiv hm
          omega))

/-- StandardTheme.formatVariant. -/
def standardFormatVariant (variant : UVariant SchemaField) (parentName : String) (depth : Nat)
    (options : Option ThemeOptions) : String :=
  let indent := themeIndent depth options
  (indent ++ "- " ++ variant.discriminatorValue ++ "\n")
    ++ String.join (mapMem variant.fields (fun f hm => standardFormatField f (depth + 1) options))
termination_by sizeVariant variant
decreasing_by
  all_goals
    (have h1 : fieldSize f < sizeVariant variant := fieldSize_lt_of_mem_variantFields hm
     omega)

end

/-- StandardTheme.format. -/
def standardFormat (model : SchemaModel) (options : Option ThemeOptions) : String :=
  let body := "## Schema\n\n"
    ++ String.join (model.fields.map (fun f => standardFormatField f 0 options))
  body.trim

/-! ### Condensed theme (src/unnamed/part_006) -/

/-- CondensedTheme.getCompactPrimitive. -/
def getCompactPrimitive (t : String) : String :=
  if t = "string" then "str"
  else if t = "number" then "num"
  else if t = "integer" then "int"
  else if t = "boolean" then "bool"
  else if t = "object" then "obj"
  else t

/-- CondensedTheme.getCompactType. -/
def getCompactType (field : SchemaField) : String :=
  if field.type = "string" then "str"
  else if field.type = "number" then "num"
  else if field.type = "integer" then "int"
  else if field.type = "boolean" then "bool"
  else if field.type = "object" then "obj"
  else if field.type = "date" then "date"
  else if field.type = "any" then "any"
  else if field.type = "union" ∧ field.unionTypes.isSome then
    String.intercalate "|" ((field.unionTypes.getD []).map (fun t =>
      match t with
      | FTF.ft s => getCompactPrimitive s
      | FTF.fld f => f.type))
  else if field.type = "tuple" ∧ field.tupleItems.isSome then
    "[" ++ String.intercalate "," ((field.tupleItems.getD []).map (fun t =>
      match t with
      | FTF.ft s => getCompactPrimitive s
      | FTF.fld f => f.type)) ++ "]"
  else if field.type = "record" ∧ truthyStr field.recordKeyType ∧ ftfTruthy field.recordValueType
    then
    let valueType :=
      match field.recordValueType with
      | Option.some (FTF.ft s) => getCompactPrimitive s
      | Option.some (FTF.fld f) => f.type
      | Option.none => ""
    "Rec<" ++ getCompactPrimitive (field.recordKeyType.getD "") ++ "," ++ valueType ++ ">"
  else if field.type = "enum" ∧ field.enumValues.isSome then
    let evs := field.enumValues.getD []
    if evs.length = 1 then evs.headD ""
    else
      -- Show first few values for enums
      let values := String.intercalate "|" (evs.take 3)
      if evs.length > 3 then values ++ "..." else values
  else if field.type = "array" then
    match field.arrayItemType with
    | Option.some (FTF.ft s) => getCompactPrimitive s ++ "[]"
    | Option.some (FTF.fld itemField) =>
      if itemField.type = "enum" ∧ itemField.enumValues.isSome then
        let evs := itemField.enumValues.getD []
        let values := String.intercalate "|" (evs.take 2)
        if evs.length > 2 then "[" ++ values ++ "...]" else "[" ++ values ++ "]"
      else itemField.type ++ "[]"
    | Option.none => "arr"
  else field.type

/-- CondensedTheme.getCriticalConstraints. -/
def getCriticalConstraints (field : SchemaField) : String :=
  let critical : List String :=
    match field.constraints with
    | Option.some cs =>
      cs.filterMap (fun c =>
        if c.ctype = "min" ∨ c.ctype = "minLength" ∨ c.ctype = "minItems" then
          Option.some ("≥" ++ jsToString c.value)
        else if c.ctype = "max" ∨ c.ctype = "maxLength" ∨ c.ctype = "maxItems" then
          Option.some ("≤" ++ jsToString c.value)
        else if c.ctype = "format" ∧ c.value = JsonValue.str "email" then Option.some "@"
        else if c.ctype = "format" ∧ c.value = JsonValue.str "uri" then Option.some "url"
        else Option.none)
    | Option.none => []
  String.intercalate "," critical

mutual

/-- CondensedTheme.formatField. -/
def condensedFormatField (field : SchemaField) (depth : Nat) (options : Option ThemeOptions) :
    String :=
  let indent := themeIndent depth options
  if field.type = "discriminated-union" ∧ field.unionVariants.isSome then
    -- Compact discriminated union representation
    match hv : field.unionVariants with
    | Option.some uvs =>
      let discriminatorValues := String.intercalate "|" (uvs.map (fun v => v.discriminatorValue))
      let discriminatorName :=
        if truthyStr field.discriminatorField then field.discriminatorField.getD "" else "type"
      let req := if field.isRequired then "!" else "?"
      (indent ++ field.name ++ ":obj[]" ++ req ++ "\n")
        ++ (indent ++ "  " ++ discriminatorName ++ ":" ++ discriminatorValues ++ "!\n")
        ++ String.join (mapMem uvs (fun v hm =>
            condensedFormatVariant v field.name (depth + 2) options))
    | Option.none => ""
  else
    -- Ultra-compact field representation
    let ty := getCompactType field
    let req := if field.isRequired then "!" else "?"
    let constraints := getCriticalConstraints field
    let head := indent ++ field.name ++ ":" ++ ty ++ req
      ++ (if constraints ≠ "" then "[" ++ constraints ++ "]" else "") ++ "\n"
    -- Nested fields with minimal indentation
    let nested :=
      if field.objectFields.isSome then
        match ho : field.objectFields with
        | Option.some nf =>
          String.join (mapMem nf (fun n hm => condensedFormatField n (depth + 1) options))
        | Option.none => ""
      else if field.type = "array" ∧ ftfIsObj field.arrayItemType then
        match ha : field.arrayItemType with
        | Option.some (FTF.fld itemField) =>
          if itemField.objectFields.isSome then
            match hio : itemField.objectFields with
            | Option.some nf =>
              String.join (mapMem nf (fun n hm => condensedFormatField n (depth + 1) options))
            | Option.none => ""
          else ""
        | _ => ""
      else ""
    head ++ nested
termination_by fieldSize field
decreasing_by
  all_goals
    first
    | (have h1 : sizeVariant v < fieldSize field := sizeVariant_lt_of_mem_unionVariants hv hm
       omega)
    | (have h1 : fieldSize n < fieldSize field := fieldSize_lt_of_mem_objectFields ho hm
       omega)
    | (have h1 : fieldSize itemField < fieldSize field := fieldSize_lt_of_arrayItemType ha
       have h2 : fieldSize n < fieldSize itemField := fieldSize_lt_of_mem_objectFields hio hm
       omega)

/-- CondensedTheme.formatVariant. -/
def condensedFormatVariant (variant : UVariant SchemaField) (parentName : String) (depth : Nat)
    (options : Option ThemeOptions) : String :=
  let indent := themeIndent depth options
  (indent ++ "=" ++ variant.discriminatorValue ++ ":\n")
    ++ String.join (mapMem variant.fields (fun f hm => condensedFormatField f (depth + 1) options))
termination_by sizeVariant variant
decreasing_by
  all_goals
    (have h1 : fieldSize f < sizeVariant variant := fieldSize_lt_of_mem_variantFields hm
     omega)

end

/-- CondensedTheme.format. -/
def condensedFormat (model : SchemaModel) (options : Option ThemeOptions) : String :=
  let body := String.join (model.fields.map (fun f => condensedFormatField f 0 options))
  body.trim

/-! ### A model of `JSON.stringify` (platform builtin)

`JVal` is the tree of JS values handed to `JSON.stringify`; object key
order is the JS insertion order.  `jsonStringify v indent level` models
`JSON.stringify(v, null, indent)` at nesting `level` (compact separators
when `indent = 0`, pretty-printed otherwise). -/

inductive JVal : Type where
  | null : JVal
  | jbool (b : Bool) : JVal
  | jnum (n : Int) : JVal
  | jstr (s : String) : JVal
  | jarr (l : List JVal) : JVal
  | jobj (fields : List (String × JVal)) : JVal

def jsonEscapeChar (c : Char) : String :=
  if c = '"' then "\\\""
  else if c = '\\' then "\\\\"
  else if c = '\n' then "\\n"
  else if c = '\r' then "\\r"
  else if c = '\t' then "\\t"
  else String.singleton c

def jsonEscape (s : String) : String :=
  String.join (s.toList.map jsonEscapeChar)

def jsonQuote (s : String) : String := "\"" ++ jsonEscape s ++ "\""

def jsonPad (indent level : Nat) : String :=
  String.mk (List.replicate (indent * level) ' ')

mutual

def jsonStringify : JVal → Nat → Nat → String
  | JVal.null, _, _ => "null"
  | JVal.jbool true, _, _ => "true"
  | JVal.jbool false, _, _ => "false"
  | JVal.jnum n, _, _ => toString n
  | JVal.jstr s, _, _ => jsonQuote s
  | JVal.jarr l, indent, level =>
    match l with
    | [] => "[]"
    | _ =>
      let items := jsonStringifyList l indent (level + 1)
      if indent = 0 then "[" ++ String.intercalate "," items ++ "]"
      else
        "[\n" ++ String.intercalate ",\n" (items.map (fun s => jsonPad indent (level + 1) ++ s))
          ++ "\n" ++ jsonPad indent level ++ "]"
  | JVal.jobj fields, indent, level =>
    match fields with
    | [] => "\x7b\x7d"
    | _ =>
      let items := jsonStringifyEntries fields indent (level + 1)
      if indent = 0 then "\x7b" ++ String.intercalate "," items ++ "\x7d"
      else
        "\x7b\n" ++ String.intercalate ",\n" (items.map (fun s => jsonPad indent (level + 1) ++ s))
          ++ "\n" ++ jsonPad indent level ++ "\x7d"

def jsonStringifyList : List JVal → Nat → Nat → List String
  | [], _, _ => []
  | v :: vs, indent, level => jsonStringify v indent level :: jsonStringifyList vs indent level

def jsonStringifyEntries : List (String × JVal) → Nat → Nat → List String
  | [], _, _ => []
  | p :: rest, indent, level =>
    (jsonQuote p.1 ++ (if indent = 0 then ":" else ": ") ++ jsonStringify p.2 indent level)
      :: jsonStringifyEntries rest indent level

end

/-! ### JSON theme (formatters/themes/json-theme.ts) -/

def jsonOfValue : JsonValue → JVal
  | JsonValue.null => JVal.null
  | JsonValue.bool b => JVal.jbool b
  | JsonValue.num n => JVal.jnum n
  | JsonValue.str s => JVal.jstr s

/-- Serialization of one `FieldExample` object (keys in creation order;
an absent description key is omitted by `JSON.stringify`). -/
def jsonOfExample (e : FieldExample) : JVal :=
  JVal.jobj ([("value", jsonOfValue e.value), ("isCorrect", JVal.jbool e.isCorrect)] ++
    (match e.description with
     | Option.some d => [("description", JVal.jstr d)]
     | Option.none => []))

/-- JS object key assignment `obj[k] = v` (overwrite in place, else append). -/
def recordSet (l : List (String × JVal)) (k : String) (v : JVal) : List (String × JVal) :=
  if l.any (fun p => p.1 = k) then
    l.map (fun p => if p.1 = k then (k, v) else p)
  else l ++ [(k, v)]

/-- JSONTheme.getJsonType. -/
def getJsonType (field : SchemaField) : String :=
  if field.type = "enum" then
    if (field.enumValues.getD []).length = 1 then "const" else "enum"
  else if field.type = "discriminated-union" then "oneOf"
  else if field.type = "date" then "string"
  else if field.type = "record" then "object"
  else if field.type = "tuple" then "array"
  else if field.type = "union" then "anyOf"
  else field.type

mutual

/-- JSONTheme.fieldToJson (returning the JS object as its key/value list). -/
def fieldToJson (field : SchemaField) : List (String × JVal) :=
  let obj : List (String × JVal) :=
    [("name", JVal.jstr field.name), ("type", JVal.jstr (getJsonType field)),
     ("required", JVal.jbool field.isRequired)]
  -- Add nullable if true
  let obj :=
    if field.isNullable = Option.some true then recordSet obj "nullable" (JVal.jbool true) else obj
  -- Always include description if present
  let obj :=
    if truthyStr field.description then
      recordSet obj "description" (JVal.jstr (field.description.getD "")) else obj
  -- Add constraints
  let obj :=
    match field.constraints with
    | Option.some cs =>
      if cs.length > 0 then
        recordSet obj "constraints"
          (JVal.jobj (cs.foldl (fun acc c => recordSet acc c.ctype (jsonOfValue c.value)) []))
      else obj
    | Option.none => obj
  -- Add enum values
  let obj :=
    match field.enumValues with
    | Option.some evs => recordSet obj "enum" (JVal.jarr (evs.map JVal.jstr))
    | Option.none => obj
  -- Add examples
  let obj :=
    match field.examples with
    | Option.some exs => recordSet obj "examples" (JVal.jarr (exs.map jsonOfExample))
    | Option.none => obj
  -- Add nested fields
  let obj :=
    match hof : field.objectFields with
    | Option.some nested =>
      let pairs := mapMem nested (fun n hm => (n.name, JVal.jobj (fieldToJson n)))
      recordSet obj "properties" (JVal.jobj (pairs.foldl (fun acc p => recordSet acc p.1 p.2) []))
    | Option.none => obj
  -- Handle arrays
  let obj :=
    if field.type = "array" ∧ ftfTruthy field.arrayItemType then
      match hat : field.arrayItemType with
      | Option.some (FTF.ft t) => recordSet obj "items" (JVal.jobj [("type", JVal.jstr t)])
      | Option.some (FTF.fld f) => recordSet obj "items" (JVal.jobj (fieldToJson f))
      | Option.none => obj
    else obj
  -- Handle tuples
  let obj :=
    if field.type = "tuple" ∧ field.tupleItems.isSome then
      match htu : field.tupleItems with
      | Option.some items =>
        recordSet obj "items" (JVal.jarr (mapMem items (fun t hm =>
          match ht2 : t with
          | FTF.ft s => JVal.jobj [("type", JVal.jstr s)]
          | FTF.fld f => JVal.jobj (fieldToJson f))))
      | Option.none => obj
    else obj
  -- Handle records
  let obj :=
    if field.type = "record" ∧ ftfTruthy field.recordValueType then
      match hrv : field.recordValueType with
      | Option.some (FTF.ft t) =>
        recordSet obj "additionalProperties" (JVal.jobj [("type", JVal.jstr t)])
      | Option.some (FTF.fld f) =>
        recordSet obj "additionalProperties" (JVal.jobj (fieldToJson f))
      | Option.none => obj
    else obj
  -- Handle discriminated unions
  let obj :=
    match huv : field.unionVariants with
    | Option.some uvs =>
      let obj2 := recordSet obj "oneOf" (JVal.jarr (mapMem uvs (fun v hm =>
        JVal.jobj (variantToJson v field.discriminatorField))))
      if truthyStr field.discriminatorField then
        recordSet obj2 "discriminator" (JVal.jstr (field.discriminatorField.getD ""))
      else obj2
    | Option.none => obj
  -- Handle regular unions
  let obj :=
    match hut : field.unionTypes with
    | Option.some uts =>
      recordSet obj "anyOf" (JVal.jarr (mapMem uts (fun t hm =>
        match ht2 : t with
        | FTF.ft s => JVal.jobj [("type", JVal.jstr s)]
        | FTF.fld f => JVal.jobj (fieldToJson f))))
    | Option.none => obj
  -- Add default value if present
  match field.defaultValue with
  | Option.some d => recordSet obj "default" (jsonOfValue d)
  | Option.none => obj
termination_by fieldSize field
decreasing_by
  all_goals
    first
    | (have h1 : fieldSize n < fieldSize field := fieldSize_lt_of_mem_objectFields hof hm
       omega)
    | (have h1 : fieldSize f < fieldSize field := fieldSize_lt_of_arrayItemType hat
       omega)
    | (have h1 : fieldSize f < fieldSize field :=
         fieldSize_lt_of_mem_tupleItems htu (ht2 ▸ hm)
       omega)
    | (have h1 : fieldSize f < fieldSize field := fieldSize_lt_of_recordValueType hrv
       omega)
    | (have h1 : sizeVariant v < fieldSize field := sizeVariant_lt_of_mem_unionVariants huv hm
       omega)
    | (have h1 : fieldSize f < fieldSize field :=
         fieldSize_lt_of_mem_unionTypes hut (ht2 ▸ hm)
       omega)

/-- JSONTheme.variantToJson. -/
def variantToJson (variant : UVariant SchemaField) (discriminatorField : Option String) :
    List (String × JVal) :=
  let propsInit : List (String × JVal) :=
    if truthyStr discriminatorField then
      recordSet [] (discriminatorField.getD "")
        (JVal.jobj [("const", JVal.jstr variant.discriminatorValue)])
    else []
  let fieldPairs : List (Option (String × JVal)) :=
    mapMem variant.fields (fun f hm =>
      -- Skip the discriminator field itself
      if Option.some f.name = discriminatorField then Option.none
      else Option.some (f.name, JVal.jobj (fieldToJson f)))
  let props := (fieldPairs.filterMap id).foldl (fun acc p => recordSet acc p.1 p.2) propsInit
  let required0 :=
    (variant.fields.filter (fun f =>
      f.isRequired ∧ ¬ (Option.some f.name = discriminatorField))).map (fun f => f.name)
  let required :=
    if truthyStr discriminatorField ∧ ¬ required0.contains (discriminatorField.getD "") then
      discriminatorField.getD "" :: required0
    else required0
  [("type", JVal.jstr "object"), ("properties", JVal.jobj props),
   ("required", JVal.jarr (required.map JVal.jstr))]
termination_by sizeVariant variant
decreasing_by
  all_goals
    (have h1 : fieldSize f < sizeVariant variant := fieldSize_lt_of_mem_variantFields hm
     omega)

end

/-- Serialization of the model metadata object (absent keys omitted). -/
def metadataToJson (m : ModelMetadata) : JVal :=
  JVal.jobj
    ((match m.title with
      | Option.some t => [("title", JVal.jstr t)]
      | Option.none => []) ++
     (match m.description with
      | Option.some d => [("description", JVal.jstr d)]
      | Option.none => []) ++
     (match m.version with
      | Option.some v => [("version", JVal.jstr v)]
      | Option.none => []) ++
     (match m.examples with
      | Option.some es => [("examples", JVal.jarr (es.map jsonOfValue))]
      | Option.none => []))

/-- JSONTheme.modelToJson. -/
def modelToJson (model : SchemaModel) : JVal :=
  JVal.jobj [("schema", JVal.jobj
    ([("fields", JVal.jarr (model.fields.map (fun f => JVal.jobj (fieldToJson f))))] ++
     (match model.metadata with
      | Option.some m => [("metadata", metadataToJson m)]
      | Option.none => [])))]

/-- JSONTheme.format. -/
def jsonThemeFormat (model : SchemaModel) (options : Option ThemeOptions) : String :=
  let output := modelToJson model
  let indent := (options.bind (fun o => o.indentSize)).getD 2
  jsonStringify output indent 0

/-! ### Expanded theme (src/src/PromptSchema.ts file, ExpandedTheme class) -/

/-- ExpandedTheme.getTypeRepresentation (differs from the standard theme
only in the union case, which surfaces an enum variant's values). -/
def expGetTypeRepresentation (field : SchemaField) : String :=
  -- Handle enum
  if field.type = "enum" ∧ field.enumValues.isSome then
    let evs := field.enumValues.getD []
    if evs.length = 1 then evs.headD ""
    else "MUST BE ONE OF [" ++ String.intercalate " | " evs ++ "]"
  -- Handle union - check if it contains an enum variant
  else if field.type = "union" ∧ field.unionTypes.isSome then
    let enumVariant := (field.unionTypes.getD []).find? (fun t =>
      match t with
      | FTF.fld f => f.type = "enum" ∧ f.enumValues.isSome
      | FTF.ft _ => false)
    match enumVariant with
    | Option.some (FTF.fld f) =>
      -- Union contains enum - show enum values as the expected type
      "MUST BE ONE OF [" ++ String.intercalate " | " (f.enumValues.getD []) ++ "]"
    | _ =>
      -- Regular union without enum
      String.intercalate " | " ((field.unionTypes.getD []).map ftfTypeName)
  -- Handle tuple
  else if field.type = "tuple" ∧ field.tupleItems.isSome then
    "[" ++ String.intercalate ", " ((field.tupleItems.getD []).map ftfTypeName) ++ "]"
  -- Handle record
  else if field.type = "record" ∧ truthyStr field.recordKeyType ∧ ftfTruthy field.recordValueType
    then
    let valueType :=
      match field.recordValueType with
      | Option.some (FTF.ft t) => t
      | Option.some (FTF.fld f) => f.type
      | Option.none => ""
    "Record<" ++ field.recordKeyType.getD "" ++ ", " ++ valueType ++ ">"
  -- Handle array
  else if field.type = "array" then
    match field.arrayItemType with
    | Option.some (FTF.ft t) => "array of " ++ getPluralType t
    | Option.some (FTF.fld itemField) =>
      if itemField.type = "enum" ∧ itemField.enumValues.isSome then
        "array where EACH item MUST BE ONE OF ["
          ++ String.intercalate ", " (itemField.enumValues.getD []) ++ "]"
      else if itemField.type = "object" then "array of objects"
      else if itemField.type = "discriminated-union" ∧ truthyStr itemField.discriminatorField then
        "array of objects (" ++ itemField.discriminatorField.getD "" ++ " as discriminator)"
      else "array"
    | Option.none => "array"
  -- Handle other types
  else if field.type = "discriminated-union" then "union"
  else field.type

/-- `typeof field.arrayItemType === 'object' && field.arrayItemType.type
=== 'enum'`. -/
def aitIsEnumObj : Option (FTF SchemaField) → Bool
  | Option.some (FTF.fld f) => f.type = "enum"
  | _ => false

/-- The `- Examples: ...` line content: each value through compact
`JSON.stringify`, joined by `", "`. -/
def exampleValuesLine (exs : List FieldExample) : String :=
  String.intercalate ", " (exs.map (fun ex => jsonStringify (jsonOfValue ex.value) 0 0))

mutual

/-- ExpandedTheme.formatField. -/
def expandedFormatField (field : SchemaField) (depth : Nat) (options : Option ThemeOptions) :
    String :=
  let indent := themeIndent depth options
  if field.type = "discriminated-union" ∧ field.unionVariants.isSome then
    match hv : field.unionVariants with
    | Option.some uvs =>
      let discriminatorValues := String.intercalate " | " (uvs.map (fun v => v.discriminatorValue))
      let discriminatorName :=
        if truthyStr field.discriminatorField then field.discriminatorField.getD "" else "type"
      let modifiers := getModifiersString field
      (indent ++ "- " ++ field.name ++ ": array of objects" ++ modifiers ++ "\n")
        -- Add description as sub-item if present
        ++ (if truthyStr field.description then
              indent ++ "  - " ++ field.description.getD "" ++ "\n" else "")
        -- Add examples if present
        ++ (match field.examples with
            | Option.some exs =>
              if exs.length > 0 then
                indent ++ "  - Examples: " ++ exampleValuesLine exs ++ "\n"
              else ""
            | Option.none => "")
        ++ (indent ++ "  - " ++ discriminatorName ++ ": Must be one of " ++ discriminatorValues
            ++ " (required)\n")
        ++ String.join (mapMem uvs (fun v hm => expandedFormatVariant v field.name (depth + 2) options))
    | Option.none => ""
  else
    -- Format regular field
    let typeRep := expGetTypeRepresentation field
    let modifiers := getModifiersString field
    let head := indent ++ "- " ++ field.name ++ ": " ++ typeRep ++ modifiers ++ "\n"
    -- For enum arrays, add an extra critical warning immediately
    let warning :=
      if field.type = "array" ∧ aitIsEnumObj field.arrayItemType then
        match field.arrayItemType with
        | Option.some (FTF.fld itemField) =>
          if itemField.enumValues.isSome then
            indent ++ "  - ⚠️ CRITICAL: Values MUST be from the list above. No other values are valid.\n"
          else ""
        | _ => ""
      else ""
    -- Add description as sub-item if present
    let descLine :=
      if truthyStr field.description then
        indent ++ "  - " ++ field.description.getD "" ++ "\n" else ""
    -- Add examples on separate line if present
    let exampleLines :=
      match field.examples with
      | Option.some exs =>
        if exs.length > 0 then
          let correctExamples := exs.filter (fun ex => ex.isCorrect)
          let incorrectExamples := exs.filter (fun ex => !ex.isCorrect)
          (if correctExamples.length > 0 then
            indent ++ "  - Examples: " ++ exampleValuesLine correctExamples ++ "\n" else "")
          ++ (if incorrectExamples.length > 0 then
            indent ++ "  - ❌ INVALID Examples (DO NOT USE): "
              ++ exampleValuesLine incorrectExamples ++ "\n" else "")
        else ""
      | Option.none => ""
    -- Add nested fields
    let nested :=
      if field.objectFields.isSome then
        match ho : field.objectFields with
        | Option.some nf =>
          String.join (mapMem nf (fun n hm => expandedFormatField n (depth + 1) options))
        | Option.none => ""
      else if field.type = "record" ∧ rvtHasObjFields field.recordValueType then
        -- Show record value structure
        match hr : field.recordValueType with
        | Option.some (FTF.fld rv) =>
          match hro : rv.objectFields with
          | Option.some nf =>
            String.join (mapMem nf (fun n hm => expandedFormatField n (depth + 1) options))
          | Option.none => ""
        | _ => ""
      else if field.type = "array" ∧ ftfIsObj field.arrayItemType then
        match ha : field.arrayItemType with
        | Option.some (FTF.fld itemField) =>
          if itemField.objectFields.isSome then
            match hio : itemField.objectFields with
            | Option.some nf =>
              String.join (mapMem nf (fun n hm => expandedFormatField n (depth + 1) options))
            | Option.none => ""
          else if itemField.unionVariants.isSome ∧ itemField.type = "discriminated-union" then
            -- Array of discriminated unions: item metadata then variants
            match hiv : itemField.unionVariants with
            | Option.some uvs =>
              (if truthyStr itemField.description then
                indent ++ "  - " ++ itemField.description.getD "" ++ "\n" else "")
              ++ (match itemField.examples with
                  | Option.some exs =>
                    if exs.length > 0 then
                      indent ++ "  - Examples: " ++ exampleValuesLine exs ++ "\n"
                    else ""
                  | Option.none => "")
              ++ (indent ++ "  - "
                  ++ (if truthyStr itemField.discriminatorField then
                        itemField.discriminatorField.getD "" else "type")
                  ++ ": Must be one of "
                  ++ String.intercalate " | " (uvs.map (fun v => v.discriminatorValue))
                  ++ " (required)\n")
              ++ String.join (mapMem uvs (fun v hm =>
                  expandedFormatVariant v field.name (depth + 2) options))
            | Option.none => ""
          else if itemField.unionVariants.isSome then
            match hiv : itemField.unionVariants with
            | Option.some uvs =>
              String.join (mapMem uvs (fun v hm =>
                expandedFormatVariant v field.name (depth + 1) options))
            | Option.none => ""
          else ""
        | _ => ""
      else ""
    head ++ warning ++ descLine ++ exampleLines ++ nested
termination_by fieldSize field
decreasing_by
  all_goals
    first
    | (have h1 : sizeVariant v < fieldSize field := sizeVariant_lt_of_mem_unionVariants hv hm
       omega)
    | (have h1 : fieldSize n < fieldSize field := fieldSize_lt_of_mem_objectFields ho hm
       omega)
    | (have h1 : fieldSize rv < fieldSize field := fieldSize_lt_of_recordValueType hr
       have h2 : fieldSize n < fieldSize rv := fieldSize_lt_of_mem_objectFields hro hm
       omega)
    | (have h1 : fieldSize itemField < fieldSize field := fieldSize_lt_of_arrayItemType ha
       first
       | (have h2 : fieldSize n < fieldSize itemField := fieldSize_lt_of_mem_objectFields hio hm
          omega)
       | (have h2 : sizeVariant v < fieldSize itemField :=
            sizeVariant_lt_of_mem_unionVariants hiv hm
          omega))

/-- ExpandedTheme.formatVariant. -/
def expandedFormatVariant (variant : UVariant SchemaField) (parentName : String) (depth : Nat)
    (options : Option ThemeOptions) : String :=
  let indent := themeIndent depth options
  (indent ++ "- " ++ variant.discriminatorValue ++ "\n")
    ++ String.join (mapMem variant.fields (fun f hm => expandedFormatField f (depth + 1) options))
termination_by sizeVariant variant
decreasing_by
  all_goals
    (have h1 : fieldSize f < sizeVariant variant := fieldSize_lt_of_mem_variantFields hm
     omega)

end

/-- ExpandedTheme.format. -/
def expandedFormat (model : SchemaModel) (options : Option ThemeOptions) : String :=
  let body := "## Schema\n\n"
    ++ String.join (model.fields.map (fun f => expandedFormatField f 0 options))
  -- Always include examples if available
  let withExamples :=
    match model.metadata with
    | Option.some m =>
      match m.examples with
      | Option.some (e :: _) =>
        body ++ "\n## Examples\n\n" ++ "```json\n"
          ++ jsonStringify (jsonOfValue e) 2 0 ++ "\n```\n"
      | _ => body
    | Option.none => body
  withExamples.trim

/-! ### Theme registry (formatters/ThemeRegistry.ts) and formatModel -/

/-- A named rendering strategy (`SchemaTheme`; only the `format` entry point
is consumed by the registry). -/
structure SchemaTheme : Type where
  name : String
  description : String
  format : SchemaModel → Option ThemeOptions → String

def standardTheme : SchemaTheme :=
  ⟨"standard", "Clean, minimal format for schema documentation", standardFormat⟩

def expandedTheme : SchemaTheme :=
  ⟨"expanded", "Full detail format with descriptions and examples", expandedFormat⟩

def condensedTheme : SchemaTheme :=
  ⟨"condensed", "Ultra-compact format for minimal token usage in AI prompts", condensedFormat⟩

def jsonTheme : SchemaTheme :=
  ⟨"json", "Structured JSON output for programmatic consumption", jsonThemeFormat⟩

/-- `ThemeRegistry.register` (`Map.set`: overwrite in place or append). -/
def registerTheme (themes : List SchemaTheme) (t : SchemaTheme) : List SchemaTheme :=
  if themes.any (fun x => x.name = t.name) then
    themes.map (fun x => if x.name = t.name then t else x)
  else themes ++ [t]

/-- The registry built by the `ThemeRegistry` constructor (standard,
expanded, condensed, json registered in that order). -/
def defaultRegistry : List SchemaTheme :=
  registerTheme
    (registerTheme (registerTheme (registerTheme [] standardTheme) expandedTheme) condensedTheme)
    jsonTheme

/-- `ThemeRegistry.get`. -/
def registryGet (themes : List SchemaTheme) (name : String) : Option SchemaTheme :=
  themes.find? (fun t => t.name = name)

/-- `ThemeRegistry.list`. -/
def registryList (themes : List SchemaTheme) : List String :=
  themes.map (fun t => t.name)

/-- `ThemeRegistry.format`; the thrown `Error` is an `Except.error` carrying
the exact message string. -/
def registryFormat (themes : List SchemaTheme) (model : SchemaModel) (themeName : String)
    (options : Option ThemeOptions) : Except String String :=
  match registryGet themes themeName with
  | Option.some theme => Except.ok (theme.format model options)
  | Option.none =>
    Except.error ("Theme '" ++ themeName ++ "' not found. Available: "
      ++ String.intercalate ", " (registryList themes))

/-- The (misspelled in source) default options of formatModel.ts. -/
def DEFALUT_OPTIONS : ThemeFormatOptions :=
  { style := Option.some "standard", indentSize := Option.some 2 }

/-- `{...DEFALUT_OPTIONS, ...options}`. -/
def mergeThemeFormatOptions (options : Option ThemeFormatOptions) : ThemeFormatOptions :=
  match options with
  | Option.none => DEFALUT_OPTIONS
  | Option.some o =>
    { style := o.style.orElse (fun _ => DEFALUT_OPTIONS.style),
      indentSize := o.indentSize.orElse (fun _ => DEFALUT_OPTIONS.indentSize) }

/-- src/formatters/formatModel.ts. -/
def formatModel (model : SchemaModel) (options : Option ThemeFormatOptions) :
    Except String String :=
  let opts := mergeThemeFormatOptions options
  let themeName := if truthyStr opts.style then opts.style.getD "" else "standard"
  let themeOptions : ThemeOptions := { indentSize := opts.indentSize }
  registryFormat defaultRegistry model themeName (Option.some themeOptions)

/-! Projection lemmas for `extractFieldBase`. -/

@[simp] theorem extractFieldBase_objectFields (name : String) (schema : JsonSchema)
    (isRequired : Bool) :
    (extractFieldBase name schema isRequired).objectFields = Option.none := by
  simp only [extractFieldBase]
  split <;> simp

@[simp] theorem extractFieldBase_unionVariants (name : String) (schema : JsonSchema)
    (isRequired : Bool) :
    (extractFieldBase name schema isRequired).unionVariants = Option.none := by
  simp only [extractFieldBase]
  split <;> simp

@[simp] theorem extractFieldBase_unionTypes (name : String) (schema : JsonSchema)
    (isRequired : Bool) :
    (extractFieldBase name schema isRequired).unionTypes = Option.none := by
  simp only [extractFieldBase]
  split <;> simp

@[simp] theorem extractFieldBase_arrayItemType (name : String) (schema : JsonSchema)
    (isRequired : Bool) :
    (extractFieldBase name schema isRequired).arrayItemType = Option.none := by
  simp only [extractFieldBase]
  split <;> simp

@[simp] theorem extractFieldBase_tupleItems (name : String) (schema : JsonSchema)
    (isRequired : Bool) :
    (extractFieldBase name schema isRequired).tupleItems = Option.none := by
  simp only [extractFieldBase]
  split <;> simp

@[simp] theorem extractFieldBase_recordValueType (name : String) (schema : JsonSchema)
    (isRequired : Bool) :
    (extractFieldBase name schema isRequired).recordValueType = Option.none := by
  simp only [extractFieldBase]
  split <;> simp

@[simp] theorem extractFieldBase_name (name : String) (schema : JsonSchema)
    (isRequired : Bool) :
    (extractFieldBase name schema isRequired).name = name := by
  simp only [extractFieldBase]
  split <;> simp

@[simp] theorem extractFieldBase_type (name : String) (schema : JsonSchema)
    (isRequired : Bool) :
    (extractFieldBase name schema isRequired).type =
      detectFieldType (unwrapNullable schema).actualSchema := by
  simp only [extractFieldBase]
  split <;> simp

@[simp] theorem extractFieldBase_isRequired (name : String) (schema : JsonSchema)
    (isRequired : Bool) :
    (extractFieldBase name schema isRequired).isRequired = isRequired := by
  simp only [extractFieldBase]
  split <;> simp

@[simp] theorem extractFieldBase_isNullable (name : String) (schema : JsonSchema)
    (isRequired : Bool) :
    (extractFieldBase name schema isRequired).isNullable =
      Option.some (unwrapNullable schema).isNullable := by
  simp only [extractFieldBase]
  split <;> simp

@[simp] theorem extractFieldBase_enumValues (name : String) (schema : JsonSchema)
    (isRequired : Bool) :
    (extractFieldBase name schema isRequired).enumValues = Option.none := by
  simp only [extractFieldBase]
  split <;> simp

@[simp] theorem extractFieldBase_recordKeyType (name : String) (schema : JsonSchema)
    (isRequired : Bool) :
    (extractFieldBase name schema isRequired).recordKeyType = Option.none := by
  simp only [extractFieldBase]
  split <;> simp

@[simp] theorem extractFieldBase_discriminatorField (name : String) (schema : JsonSchema)
    (isRequired : Bool) :
    (extractFieldBase name schema isRequired).discriminatorField = Option.none := by
  simp only [extractFieldBase]
  split <;> simp

@[simp] theorem extractFieldBase_defaultValue (name : String) (schema : JsonSchema)
    (isRequired : Bool) :
    (extractFieldBase name schema isRequired).defaultValue = Option.none := by
  simp only [extractFieldBase]
  split <;> simp

@[simp] theorem extractFieldBase_description (name : String) (schema : JsonSchema)
    (isRequired : Bool) :
    (extractFieldBase name schema isRequired).description =
      orTruthyStr schema.core.description
        (unwrapNullable schema).actualSchema.core.description := by
  simp only [extractFieldBase]
  split <;> simp

@[simp] theorem extractFieldBase_constraints (name : String) (schema : JsonSchema)
    (isRequired : Bool) :
    (extractFieldBase name schema isRequired).constraints =
      Option.some (extractConstraints (unwrapNullable schema).actualSchema) := by
  simp only [extractFieldBase]
  split <;> simp

@[simp] theorem extractFieldBase_core_name (name : String) (schema : JsonSchema)
    (isRequired : Bool) :
    (extractFieldBase name schema isRequired).core.name = name := by
  simp only [extractFieldBase]
  split <;> simp

@[simp] theorem extractFieldBase_core_type (name : String) (schema : JsonSchema)
    (isRequired : Bool) :
    (extractFieldBase name schema isRequired).core.type = detectFieldType (unwrapNullable schema).actualSchema := by
  simp only [extractFieldBase]
  split <;> simp

@[simp] theorem extractFieldBase_core_isRequired (name : String) (schema : JsonSchema)
    (isRequired : Bool) :
    (extractFieldBase name schema isRequired).core.isRequired = isRequired := by
  simp only [extractFieldBase]
  split <;> simp

@[simp] theorem extractFieldBase_core_isNullable (name : String) (schema : JsonSchema)
    (isRequired : Bool) :
    (extractFieldBase name schema isRequired).core.isNullable = Option.some (unwrapNullable schema).isNullable := by
  simp only [extractFieldBase]
  split <;> simp

@[simp] theorem extractFieldBase_core_enumValues (name : String) (schema : JsonSchema)
    (isRequired : Bool) :
    (extractFieldBase name schema isRequired).core.enumValues = (Option.none : Option (List String)) := by
  simp only [extractFieldBase]
  split <;> simp

@[simp] theorem extractFieldBase_core_recordKeyType (name : String) (schema : JsonSchema)
    (isRequired : Bool) :
    (extractFieldBase name schema isRequired).core.recordKeyType = (Option.none : Option String) := by
  simp only [extractFieldBase]
  split <;> simp

@[simp] theorem extractFieldBase_core_discriminatorField (name : String) (schema : JsonSchema)
    (isRequired : Bool) :
    (extractFieldBase name schema isRequired).core.discriminatorField = (Option.none : Option String) := by
  simp only [extractFieldBase]
  split <;> simp

@[simp] theorem extractFieldBase_core_defaultValue (name : String) (schema : JsonSchema)
    (isRequired : Bool) :
    (extractFieldBase name schema isRequired).core.defaultValue = (Option.none : Option JsonValue) := by
  simp only [extractFieldBase]
  split <;> simp

@[simp] theorem extractFieldBase_core_description (name : String) (schema : JsonSchema)
    (isRequired : Bool) :
    (extractFieldBase name schema isRequired).core.description = orTruthyStr schema.core.description (unwrapNullable schema).actualSchema.core.description := by
  simp only [extractFieldBase]
  split <;> simp

@[simp] theorem extractFieldBase_core_constraints (name : String) (schema : JsonSchema)
    (isRequired : Bool) :
    (extractFieldBase name schema isRequired).core.constraints = Option.some (extractConstraints (unwrapNullable schema).actualSchema) := by
  simp only [extractFieldBase]
  split <;> simp

/-- The tagged example list assembled by extractField: truthiness-preferred
good examples, then bad examples. -/
def expectedExamples (schema : JsonSchema) : List FieldExample :=
  (match orTruthyList schema.core.examples
      (unwrapNullable schema).actualSchema.core.examples with
   | Option.some l => l.map (fun v => ⟨v, true, Option.none⟩)
   | Option.none => []) ++
  (match orTruthyList schema.core.badExamples
      (unwrapNullable schema).actualSchema.core.badExamples with
   | Option.some l => l.map (fun v => ⟨v, false, Option.none⟩)
   | Option.none => [])

theorem extractFieldBase_examples (name : String) (schema : JsonSchema) (isRequired : Bool) :
    (extractFieldBase name schema isRequired).examples =
      (if (expectedExamples schema).length > 0 then Option.some (expectedExamples schema)
       else Option.none) := by
  simp only [extractFieldBase, expectedExamples]
  split <;> simp

/-! ### Claim C4: unwrapNullable -/

/-- A schema node carrying only a `type` string. -/
def typedSchema (t : String) : JsonSchema :=
  JsonSchema.mk { typeF := TypeField.str t } Option.none JItems.absent Option.none Option.none
    Option.none JAddProps.absent

/-- The concrete `{anyOf: [{type:"null"}, {type:"string"}]}` document. -/
def c4NullableWrapped : JsonSchema :=
  JsonSchema.mk {} Option.none JItems.absent Option.none
    (Option.some [typedSchema "null", typedSchema "string"]) Option.none JAddProps.absent

/-- The guard conditions under which `unwrapNullable` recognizes one of the
two null-union encodings (exactly the source's tests: an `anyOf` with a null
branch and exactly one non-null branch, or a `type` array containing
`"null"`). -/
def nullableEncoded (s : JsonSchema) : Bool :=
  (match s.anyOf with
   | Option.some branches =>
     branches.any isNullType ∧ (branches.filter (fun b => !isNullType b)).length = 1
   | Option.none => false) ||
  (match s.typeF with
   | TypeField.arr ts => "null" ∈ ts
   | _ => false)

theorem unwrapNullable_not_encoded (s : JsonSchema) (h : nullableEncoded s = false) :
    unwrapNullable s = ⟨s, false⟩ := by
  rw [nullableEncoded, Bool.or_eq_false_iff] at h
  obtain ⟨h1, h2⟩ := h
  rw [unwrapNullable]
  have hv : unwrapViaAnyOf s = Option.none := by
    rw [unwrapViaAnyOf]
    cases ha : s.anyOf with
    | none => rfl
    | some branches =>
      rw [ha] at h1
      simp only at h1 ⊢
      rw [if_neg]
      simp only [decide_eq_false_iff_not] at h1
      exact fun hg => h1 ⟨hg.1, hg.2⟩
  rw [hv]
  cases ht : s.typeF with
  | absent => rfl
  | str t => rfl
  | arr ts =>
    rw [ht] at h2
    simp only [decide_eq_false_iff_not] at h2
    simp only
    rw [if_neg h2]

/-- C4: `unwrapNullable` maps `{anyOf:[{type:"null"},{type:"string"}]}` to
the non-null branch with `isNullable = true`, maps a plain
`{type:"string"}` to itself with `isNullable = false`, and returns any
schema matching neither recognized null-union encoding unchanged with
`isNullable = false` (totality and absence of exceptions hold by
construction of the embedding). -/
theorem C4_unwrapNullable_spec :
    unwrapNullable c4NullableWrapped = ⟨typedSchema "string", true⟩ ∧
    unwrapNullable (typedSchema "string") = ⟨typedSchema "string", false⟩ ∧
    (∀ s : JsonSchema, nullableEncoded s = false → unwrapNullable s = ⟨s, false⟩) :=
  ⟨rfl, rfl, unwrapNullable_not_encoded⟩

/-- C4 witness: the general clause applied at the concrete `{type:"number"}`
schema. -/
theorem C4_unwrapNullable_spec_witness :
    unwrapNullable (typedSchema "number") = ⟨typedSchema "number", false⟩ :=
  C4_unwrapNullable_spec.2.2 (typedSchema "number") rfl

/-! ### Claim C10: empty oneOf/anyOf lists -/

/-- C10: when a node's `oneOf` (or, failing that, `anyOf`) is present but
empty, discriminator detection succeeds vacuously on the first candidate
name: `findDiscriminator` returns `"type"` and `extractUnionField` builds a
discriminated-union field with `discriminatorField = "type"` and an empty
variant list (not a plain union, not an `any` field). -/
theorem C10_empty_union_discriminated (name : String) (s : JsonSchema) (isRequired : Bool)
    (options : ExtractOptions) (depth : Nat)
    (h : s.oneOf = Option.some [] ∨ (s.oneOf = Option.none ∧ s.anyOf = Option.some [])) :
    findDiscriminator (unionBranches s) = Option.some "type" ∧
    (extractUnionField name s isRequired options depth).type = "discriminated-union" ∧
    (extractUnionField name s isRequired options depth).discriminatorField = Option.some "type" ∧
    (extractUnionField name s isRequired options depth).unionVariants = Option.some [] := by
  have hb : unionBranches s = [] := by
    rw [unionBranches]
    rcases h with h1 | ⟨h1, h2⟩
    · rw [h1]
    · rw [h1, h2]
  have hud : extractUnionData s options depth =
      { isDiscriminated := true, variants := Option.some [],
        discriminatorField := Option.some "type", types := [] } := by
    rw [extractUnionData, hb]
    rfl
  refine ⟨by rw [hb]; rfl, ?_, ?_, ?_⟩ <;>
    simp [extractUnionField, hud]

/-- C10 witness: the theorem applied to a concrete node with `oneOf: []`. -/
theorem C10_empty_union_discriminated_witness :
    (extractUnionField "root"
      (JsonSchema.mk {} Option.none JItems.absent (Option.some []) Option.none Option.none
        JAddProps.absent) true OPTIONS 0).discriminatorField = Option.some "type" :=
  (C10_empty_union_discriminated "root"
    (JsonSchema.mk {} Option.none JItems.absent (Option.some []) Option.none Option.none
      JAddProps.absent) true OPTIONS 0 (Or.inl rfl)).2.2.1

/-! ### Claim C7: theme registry dispatch -/

/-- C7: rendering through the default registry returns a string exactly for
the four registered theme names (`standard`, `expanded`, `condensed`,
`json`, in registration order), and on any other name fails with the error
message naming the requested theme and listing the valid names.  (Totality
of each theme's `format` holds by construction: all four are total Lean
functions.) -/
theorem C7_theme_registry (model : SchemaModel) (themeName : String)
    (options : Option ThemeOptions) :
    registryList defaultRegistry = ["standard", "expanded", "condensed", "json"] ∧
    ((registryFormat defaultRegistry model themeName options).isOk = true ↔
      themeName ∈ ["standard", "expanded", "condensed", "json"]) ∧
    (themeName ∉ ["standard", "expanded", "condensed", "json"] →
      registryFormat defaultRegistry model themeName options =
        Except.error ("Theme '" ++ themeName
          ++ "' not found. Available: standard, expanded, condensed, json")) := by
  have hreg : defaultRegistry = [standardTheme, expandedTheme, condensedTheme, jsonTheme] := rfl
  refine ⟨rfl, ?_, ?_⟩
  · by_cases h1 : themeName = "standard"
    · subst h1; simp [registryFormat, registryGet, hreg,
        standardTheme, expandedTheme, condensedTheme, jsonTheme, Except.isOk, Except.toBool]
    by_cases h2 : themeName = "expanded"
    · subst h2; simp [registryFormat, registryGet, hreg,
        standardTheme, expandedTheme, condensedTheme, jsonTheme, Except.isOk, Except.toBool]
    by_cases h3 : themeName = "condensed"
    · subst h3; simp [registryFormat, registryGet, hreg,
        standardTheme, expandedTheme, condensedTheme, jsonTheme, Except.isOk, Except.toBool]
    by_cases h4 : themeName = "json"
    · subst h4; simp [registryFormat, registryGet, hreg,
        standardTheme, expandedTheme, condensedTheme, jsonTheme, Except.isOk, Except.toBool]
    · have e1 : decide ("standard" = themeName) = false := by simp [Ne.symm h1]
      have e2 : decide ("expanded" = themeName) = false := by simp [Ne.symm h2]
      have e3 : decide ("condensed" = themeName) = false := by simp [Ne.symm h3]
      have e4 : decide ("json" = themeName) = false := by simp [Ne.symm h4]
      simp [registryFormat, registryGet, hreg, registryList,
        standardTheme, expandedTheme, condensedTheme, jsonTheme, Except.isOk, Except.toBool,
        List.find?, e1, e2, e3, e4, h1, h2, h3, h4]
  · intro hmem
    simp only [List.mem_cons, List.not_mem_nil, or_false, not_or] at hmem
    obtain ⟨h1, h2, h3, h4⟩ := hmem
    have e1 : decide ("standard" = themeName) = false := by simp [Ne.symm h1]
    have e2 : decide ("expanded" = themeName) = false := by simp [Ne.symm h2]
    have e3 : decide ("condensed" = themeName) = false := by simp [Ne.symm h3]
    have e4 : decide ("json" = themeName) = false := by simp [Ne.symm h4]
    simp only [registryFormat, registryGet, hreg, registryList,
      standardTheme, expandedTheme, condensedTheme, jsonTheme, List.find?, e1, e2, e3, e4]
    rw [String.append_assoc]
    rfl

/-- C7 witness: the error clause at the concrete unregistered name
`"fancy"`, and the success clause at `"standard"`. -/
theorem C7_theme_registry_witness :
    (registryFormat defaultRegistry ⟨[], Option.none⟩ "fancy" Option.none =
      Except.error "Theme 'fancy' not found. Available: standard, expanded, condensed, json") ∧
    (registryFormat defaultRegistry ⟨[], Option.none⟩ "standard" Option.none).isOk = true := by
  constructor
  · have h := (C7_theme_registry ⟨[], Option.none⟩ "fancy" Option.none).2.2 (by decide)
    simpa using h
  · exact (C7_theme_registry ⟨[], Option.none⟩ "standard" Option.none).2.1.mpr (by decide)

/-! ### Claim C8: constraint extraction -/

/-- The constraint kinds that actually fire on a node, in the source's fixed
enumeration order (string keys, then numeric bounds, then item-count
bounds).  `pattern`/`format` fire only when non-empty (JS truthiness);
the six `!== undefined` keys fire whenever present. -/
def activeConstraintKinds (s : JsonSchema) : List String :=
  (if s.core.minLength.isSome then ["minLength"] else []) ++
  (if s.core.maxLength.isSome then ["maxLength"] else []) ++
  (if truthyStr s.core.pattern then ["pattern"] else []) ++
  (if truthyStr s.core.format then ["format"] else []) ++
  (if s.core.minimum.isSome then ["min"] else []) ++
  (if s.core.maximum.isSome then ["max"] else []) ++
  (if s.core.minItems.isSome then ["minItems"] else []) ++
  (if s.core.maxItems.isSome then ["maxItems"] else [])

/-- The correctness condition of one emitted constraint entry: its kind tag,
raw value and display string agree with the source key it came from. -/
def constraintMatchesSource (s : JsonSchema) (c : FieldConstraint) : Prop :=
  (c.ctype = "minLength" ∧ ∃ n, s.core.minLength = Option.some n ∧
    c.value = JsonValue.num n ∧ c.display = Option.some s!"min {n} chars") ∨
  (c.ctype = "maxLength" ∧ ∃ n, s.core.maxLength = Option.some n ∧
    c.value = JsonValue.num n ∧ c.display = Option.some s!"max {n} chars") ∨
  (c.ctype = "pattern" ∧ ∃ p, s.core.pattern = Option.some p ∧ p ≠ "" ∧
    c.value = JsonValue.str p ∧ c.display = Option.some ("pattern: " ++ p)) ∨
  (c.ctype = "format" ∧ ∃ f, s.core.format = Option.some f ∧ f ≠ "" ∧
    c.value = JsonValue.str f ∧ c.display = Option.some ("format: " ++ f)) ∨
  (c.ctype = "min" ∧ ∃ n, s.core.minimum = Option.some n ∧
    c.value = JsonValue.num n ∧ c.display = Option.some s!"min: {n}") ∨
  (c.ctype = "max" ∧ ∃ n, s.core.maximum = Option.some n ∧
    c.value = JsonValue.num n ∧ c.display = Option.some s!"max: {n}") ∨
  (c.ctype = "minItems" ∧ ∃ n, s.core.minItems = Option.some n ∧
    c.value = JsonValue.num n ∧ c.display = Option.some s!"min {n} items") ∨
  (c.ctype = "maxItems" ∧ ∃ n, s.core.maxItems = Option.some n ∧
    c.value = JsonValue.num n ∧ c.display = Option.some s!"max {n} items")

theorem mem_optConstraint {o : Option Int} {f : Int → FieldConstraint} {c : FieldConstraint}
    (h : c ∈ (match o with
              | Option.some n => [f n]
              | Option.none => ([] : List FieldConstraint))) :
    ∃ n, o = Option.some n ∧ c = f n := by
  cases o with
  | none => cases h
  | some n =>
    simp only [List.mem_singleton] at h
    exact ⟨n, rfl, h⟩

/-- The concrete counterexample: a node whose `pattern` key is present but
holds the empty string. -/
def c8EmptyPattern : JsonSchema :=
  JsonSchema.mk { pattern := Option.some "" } Option.none JItems.absent Option.none Option.none
    Option.none JAddProps.absent

/-- C8 counterexample: the claim "exactly one constraint entry per
recognized key present on the node" fails: `c8EmptyPattern` carries the
recognized key `pattern` (value `""`), yet `extractConstraints` emits no
entry at all (`if (schema.pattern)` is a truthiness test). -/
theorem C8_counterexample :
    c8EmptyPattern.core.pattern.isSome = true ∧ extractConstraints c8EmptyPattern = [] := by
  constructor
  · rfl
  · rfl

/-- C8 (amended): `extractConstraints` emits exactly one entry per firing
key — all eight recognized keys fire when present, except that
`pattern`/`format` additionally require a non-empty string — in the fixed
enumeration order independent of the document, and each entry carries the
kind tag, the raw value, and the precomputed display string of its source
key. -/
theorem C8_extractConstraints_spec (s : JsonSchema) :
    (extractConstraints s).map (fun c => c.ctype) = activeConstraintKinds s ∧
    ∀ c ∈ extractConstraints s, constraintMatchesSource s c := by
  constructor
  · rw [extractConstraints, activeConstraintKinds]
    simp only [List.map_append]
    cases s.core.minLength <;> cases s.core.maxLength <;>
      cases hp : truthyStr s.core.pattern <;> cases hf : truthyStr s.core.format <;>
      cases s.core.minimum <;> cases s.core.maximum <;>
      cases s.core.minItems <;> cases s.core.maxItems <;>
      simp [hp, hf]
  · intro c hc
    rw [extractConstraints] at hc
    simp only [List.mem_append] at hc
    rcases hc with (((((((h | h) | h) | h) | h) | h) | h) | h)
    · obtain ⟨n, hn, hcn⟩ := mem_optConstraint h
      subst hcn
      exact Or.inl ⟨rfl, n, hn, rfl, rfl⟩
    · obtain ⟨n, hn, hcn⟩ := mem_optConstraint h
      subst hcn
      exact Or.inr (Or.inl ⟨rfl, n, hn, rfl, rfl⟩)
    · by_cases hp : truthyStr s.core.pattern
      · rw [if_pos hp] at h
        simp only [List.mem_singleton] at h
        subst h
        cases hpp : s.core.pattern with
        | none => rw [hpp] at hp; simp [truthyStr] at hp
        | some p =>
          have hne : p ≠ "" := by
            rw [hpp] at hp
            simpa [truthyStr] using hp
          refine Or.inr (Or.inr (Or.inl ⟨rfl, p, hpp, hne, ?_, ?_⟩)) <;> simp [hpp]
      · rw [if_neg hp] at h
        cases h
    · by_cases hf : truthyStr s.core.format
      · rw [if_pos hf] at h
        simp only [List.mem_singleton] at h
        subst h
        cases hff : s.core.format with
        | none => rw [hff] at hf; simp [truthyStr] at hf
        | some f =>
          have hne : f ≠ "" := by
            rw [hff] at hf
            simpa [truthyStr] using hf
          refine Or.inr (Or.inr (Or.inr (Or.inl ⟨rfl, f, hff, hne, ?_, ?_⟩))) <;> simp [hff]
      · rw [if_neg hf] at h
        cases h
    · obtain ⟨n, hn, hcn⟩ := mem_optConstraint h
      subst hcn
      exact Or.inr (Or.inr (Or.inr (Or.inr (Or.inl ⟨rfl, n, hn, rfl, rfl⟩))))
    · obtain ⟨n, hn, hcn⟩ := mem_optConstraint h
      subst hcn
      exact Or.inr (Or.inr (Or.inr (Or.inr (Or.inr (Or.inl ⟨rfl, n, hn, rfl, rfl⟩)))))
    · obtain ⟨n, hn, hcn⟩ := mem_optConstraint h
      subst hcn
      exact Or.inr (Or.inr (Or.inr (Or.inr (Or.inr (Or.inr (Or.inl ⟨rfl, n, hn, rfl, rfl⟩))))))
    · obtain ⟨n, hn, hcn⟩ := mem_optConstraint h
      subst hcn
      exact Or.inr (Or.inr (Or.inr (Or.inr (Or.inr (Or.inr (Or.inr ⟨rfl, n, hn, rfl, rfl⟩))))))

/-- C8 witness: the amended theorem applied at a concrete node carrying
`minLength: 3` and `format: "email"`. -/
theorem C8_extractConstraints_spec_witness :
    ((extractConstraints (JsonSchema.mk
        { minLength := Option.some 3, format := Option.some "email" }
        Option.none JItems.absent Option.none Option.none Option.none
        JAddProps.absent)).map (fun c => c.ctype) = ["minLength", "format"]) := by
  have h := (C8_extractConstraints_spec (JsonSchema.mk
    { minLength := Option.some 3, format := Option.some "email" }
    Option.none JItems.absent Option.none Option.none Option.none JAddProps.absent)).1
  rw [h]
  rfl

/-! ### Claim C6: const nodes become single-value enums tagged as
discriminators -/

/-- C6: whenever the nullability-unwrapped schema declares no `enum` key but
carries a `const` value, `extractField` produces an `enum` field whose
`enumValues` is the single stringified constant and whose
`discriminatorField` is the field's own name. -/
theorem C6_const_becomes_discriminator_enum (name : String) (schema : JsonSchema)
    (isRequired : Bool) (options : ExtractOptions) (depth : Nat) (c : JsonValue)
    (h1 : (unwrapNullable schema).actualSchema.core.enumF = Option.none)
    (h2 : (unwrapNullable schema).actualSchema.core.constF = Option.some c) :
    (extractField name schema isRequired options depth).type = "enum" ∧
    (extractField name schema isRequired options depth).enumValues =
      Option.some [jsToString c] ∧
    (extractField name schema isRequired options depth).discriminatorField =
      Option.some name := by
  refine ⟨?_, ?_, ?_⟩ <;>
    (simp only [extractField, extractFieldRefine, h1, h2]
     split <;> simp)

/-- C6 witness: the theorem applied at the concrete node
`{const: "text"}`. -/
theorem C6_const_becomes_discriminator_enum_witness :
    (extractField "kind"
        (JsonSchema.mk { constF := Option.some (JsonValue.str "text") } Option.none JItems.absent
          Option.none Option.none Option.none JAddProps.absent)
        true OPTIONS 0).discriminatorField = Option.some "kind" :=
  (C6_const_becomes_discriminator_enum "kind"
    (JsonSchema.mk { constF := Option.some (JsonValue.str "text") } Option.none JItems.absent
      Option.none Option.none Option.none JAddProps.absent)
    true OPTIONS 0 (JsonValue.str "text") rfl rfl).2.2

/-! ### Claim C1: the recursion depth bound -/

/-- A 3-level-deep nested object document:
`{type:"object", properties:{b:{type:"object", properties:{c:{type:"string"}}}}}`
wrapped once more below. -/
def c1Level2 : JsonSchema :=
  JsonSchema.mk { typeF := TypeField.str "object" }
    (Option.some [("c", typedSchema "string")]) JItems.absent Option.none Option.none
    Option.none JAddProps.absent

def c1Level1 : JsonSchema :=
  JsonSchema.mk { typeF := TypeField.str "object" }
    (Option.some [("b", c1Level2)]) JItems.absent Option.none Option.none
    Option.none JAddProps.absent

/-- C1 counterexample: the claim says that with `maxDepth = 0` no nesting is
expanded at all, but `options.maxDepth || 3` treats 0 as falsy, so the
effective bound is 3 and the nested object IS expanded: at `maxDepth = 0`
the extracted field still carries `objectFields`. -/
theorem C1_counterexample :
    ((extractField "a" c1Level1 true { maxDepth := Option.some 0 } 0).objectFields).isSome
      = true := by
  have e1 : (unwrapNullable c1Level1).actualSchema = c1Level1 := rfl
  have e2 : c1Level1.core.enumF = Option.none := rfl
  have e3 : c1Level1.core.constF = Option.none := rfl
  have e4 : detectFieldType c1Level1 = "object" := rfl
  have e5 : c1Level1.properties.isSome = true := rfl
  have e6 : (0 : Nat) < effMaxDepth { maxDepth := Option.some 0 } := by decide
  simp only [extractField, extractFieldRefine]
  simp [e1, e2, e3, e4, e5, e6]

/-- C1 (amended): extraction expands object properties and `oneOf`/`anyOf`
unions only while the current depth is strictly below the *effective*
maximum depth `effMaxDepth options` (the configured `maxDepth` when ≥ 1;
a zero or absent `maxDepth` falls back to 3, since `options.maxDepth || 3`
treats 0 as falsy): a field reached at depth ≥ the bound has `objectFields`
and `unionVariants` absent, while an object field reached strictly below
the bound with properties present has its `objectFields` populated by
recursion at `depth + 1`.  (Array, tuple and record children are extracted
regardless of depth; only their nested objects are clipped by this rule.) -/
theorem C1_depth_bound (name : String) (schema : JsonSchema) (isRequired : Bool)
    (options : ExtractOptions) (depth : Nat) :
    (effMaxDepth options ≤ depth →
      (extractField name schema isRequired options depth).objectFields = Option.none ∧
      (extractField name schema isRequired options depth).unionVariants = Option.none) ∧
    (depth < effMaxDepth options →
      detectFieldType (unwrapNullable schema).actualSchema = "object" →
      (unwrapNullable schema).actualSchema.core.enumF = Option.none →
      (unwrapNullable schema).actualSchema.core.constF = Option.none →
      (unwrapNullable schema).actualSchema.properties.isSome = true →
      (extractField name schema isRequired options depth).objectFields =
        Option.some (extractObjectFields (unwrapNullable schema).actualSchema options
          (depth + 1))) := by
  constructor
  · intro hd
    have hnl : ¬ (depth < effMaxDepth options) := by omega
    have key : (extractFieldRefine name (extractFieldBase name schema isRequired)
        (unwrapNullable schema).actualSchema options depth).objectFields = Option.none ∧
        (extractFieldRefine name (extractFieldBase name schema isRequired)
          (unwrapNullable schema).actualSchema options depth).unionVariants = Option.none := by
      simp only [extractFieldRefine]
      cases henum : (unwrapNullable schema).actualSchema.core.enumF with
      | some vs => simp
      | none =>
        cases hconst : (unwrapNullable schema).actualSchema.core.constF with
        | some c => simp
        | none =>
          repeat' split
          all_goals
            first
            | (exact absurd (‹_ ∧ depth < effMaxDepth options›.2) hnl)
            | simp
    constructor <;>
      (simp only [extractField]
       split <;> simp [key.1, key.2])
  · intro hdep hdet henum hconst hprops
    simp only [extractField, extractFieldRefine, henum, hconst]
    split <;> simp [hdet, hdep, hprops]

/-- C1 witness: the theorem applied to the 3-level nested object document at
`maxDepth = 1` — level-1 fields carry no `objectFields` (beyond the bound),
while the level-0 field's `objectFields` is the depth-1 recursion. -/
theorem C1_depth_bound_witness :
    (extractField "b" c1Level2 false { maxDepth := Option.some 1 } 1).objectFields =
      Option.none ∧
    (extractField "a" c1Level1 true { maxDepth := Option.some 1 } 0).objectFields =
      Option.some (extractObjectFields c1Level1 { maxDepth := Option.some 1 } 1) := by
  constructor
  · exact ((C1_depth_bound "b" c1Level2 false { maxDepth := Option.some 1 } 1).1 (by decide)).1
  · have h := (C1_depth_bound "a" c1Level1 true { maxDepth := Option.some 1 } 0).2
      (by decide) rfl rfl rfl rfl
    simpa using h

/-! ### Claim C5: object roots yield one field per property with matching
`isRequired` -/

theorem extractFieldRefine_name (name : String) (f : SchemaField) (a : JsonSchema)
    (options : ExtractOptions) (depth : Nat) :
    (extractFieldRefine name f a options depth).core.name = f.core.name := by
  simp only [extractFieldRefine]
  cases henum : a.core.enumF with
  | some vs => simp
  | none =>
    cases hconst : a.core.constF with
    | some c => simp
    | none =>
      repeat' split
      all_goals simp_all

theorem extractFieldRefine_isRequired (name : String) (f : SchemaField) (a : JsonSchema)
    (options : ExtractOptions) (depth : Nat) :
    (extractFieldRefine name f a options depth).core.isRequired = f.core.isRequired := by
  simp only [extractFieldRefine]
  cases henum : a.core.enumF with
  | some vs => simp
  | none =>
    cases hconst : a.core.constF with
    | some c => simp
    | none =>
      repeat' split
      all_goals simp_all

@[simp] theorem extractField_name (name : String) (schema : JsonSchema) (isRequired : Bool)
    (options : ExtractOptions) (depth : Nat) :
    (extractField name schema isRequired options depth).name = name := by
  simp only [extractField, SchemaField.name]
  split <;> simp [extractFieldRefine_name]

@[simp] theorem extractField_isRequired (name : String) (schema : JsonSchema)
    (isRequired : Bool) (options : ExtractOptions) (depth : Nat) :
    (extractField name schema isRequired options depth).isRequired = isRequired := by
  simp only [extractField, SchemaField.isRequired]
  split <;> simp [extractFieldRefine_isRequired]

/-- The per-property field list before the sort. -/
theorem extractObjectFields_eq (schema : JsonSchema) (options : ExtractOptions) (depth : Nat)
    (props : List (String × JsonSchema)) (hp : schema.properties = Option.some props) :
    extractObjectFields schema options depth =
      List.mergeSort (props.map (fun p =>
        extractField p.1 p.2 ((schema.core.requiredF.getD []).contains p.1) options depth))
        fieldSortLe := by
  simp only [extractObjectFields]
  split
  · rename_i props2 hp2
    rw [hp] at hp2
    injection hp2 with h
    subst h
    rw [mapMem_eq_map]
  · rename_i hp2
    rw [hp] at hp2
    cases hp2

/-- C5: for a root of the form `{type:"object", properties: …}`,
`extractToModel` yields exactly one top-level field per property (same count
and the same multiset of names, in some order), and every field's
`isRequired` equals membership of its name in the root's `required` list. -/
theorem C5_object_root_fields (schema : JsonSchema) (options : Option ExtractOptions)
    (props : List (String × JsonSchema))
    (ht : schema.typeF = TypeField.str "object")
    (hp : schema.properties = Option.some props) :
    (extractToModel schema options).fields.length = props.length ∧
    ((extractToModel schema options).fields.map SchemaField.name).Perm (props.map Prod.fst) ∧
    (∀ f ∈ (extractToModel schema options).fields,
      f.isRequired = (schema.core.requiredF.getD []).contains f.name) := by
  have hcond : schema.typeF = TypeField.str "object" ∧ schema.properties.isSome = true :=
    ⟨ht, by rw [hp]; rfl⟩
  have hfields : (extractToModel schema options).fields =
      List.mergeSort (props.map (fun p =>
        extractField p.1 p.2 ((schema.core.requiredF.getD []).contains p.1)
          (mergeOptions options) 0)) fieldSortLe := by
    simp only [extractToModel]
    rw [if_pos hcond]
    exact extractObjectFields_eq schema (mergeOptions options) 0 props hp
  refine ⟨?_, ?_, ?_⟩
  · rw [hfields, List.length_mergeSort, List.length_map]
  · rw [hfields]
    have hperm := (List.mergeSort_perm (props.map (fun p =>
      extractField p.1 p.2 ((schema.core.requiredF.getD []).contains p.1)
        (mergeOptions options) 0)) fieldSortLe).map SchemaField.name
    refine hperm.trans ?_
    rw [List.map_map]
    have : ∀ p ∈ props, (SchemaField.name ∘ (fun p : String × JsonSchema =>
        extractField p.1 p.2 ((schema.core.requiredF.getD []).contains p.1)
          (mergeOptions options) 0)) p = Prod.fst p := by
      intro p hp2
      simp [Function.comp]
    rw [List.map_congr_left this]
  · intro f hf
    rw [hfields, List.mem_mergeSort] at hf
    obtain ⟨p, hp2, hfe⟩ := List.mem_map.mp hf
    rw [← hfe]
    simp

/-- C5 witness: the theorem at the concrete two-property root
`{type:"object", properties:{a,b}, required:["a"]}`. -/
theorem C5_object_root_fields_witness :
    ((extractToModel (JsonSchema.mk
        { typeF := TypeField.str "object", requiredF := Option.some ["a"] }
        (Option.some [("a", typedSchema "string"), ("b", typedSchema "number")])
        JItems.absent Option.none Option.none Option.none JAddProps.absent)
        Option.none).fields.length = 2) ∧
    (∀ f ∈ (extractToModel (JsonSchema.mk
        { typeF := TypeField.str "object", requiredF := Option.some ["a"] }
        (Option.some [("a", typedSchema "string"), ("b", typedSchema "number")])
        JItems.absent Option.none Option.none Option.none JAddProps.absent)
        Option.none).fields,
      f.isRequired = (["a"] : List String).contains f.name) := by
  have h := C5_object_root_fields (JsonSchema.mk
    { typeF := TypeField.str "object", requiredF := Option.some ["a"] }
    (Option.some [("a", typedSchema "string"), ("b", typedSchema "number")])
    JItems.absent Option.none Option.none Option.none JAddProps.absent)
    Option.none [("a", typedSchema "string"), ("b", typedSchema "number")] rfl rfl
  exact ⟨h.1, h.2.2⟩

/-! ### Claim C2: discriminator detection priority and union output shape -/

/-- `variants.every((v) => v.properties?.[fieldName]?.const !== undefined)`:
branch-wise success of one candidate discriminator name. -/
def allHaveConst (variants : List JsonSchema) (n : String) : Bool :=
  variants.all (fun v => (constOfProp v n).isSome)

/-- `findDiscriminator` as the priority cascade over the three candidate
names. -/
theorem findDiscriminator_eq (variants : List JsonSchema) :
    findDiscriminator variants =
      (if allHaveConst variants "type" then Option.some "type"
       else if allHaveConst variants "kind" then Option.some "kind"
       else if allHaveConst variants "discriminator" then Option.some "discriminator"
       else Option.none) := by
  have g1 : (variants.all fun v => (constOfProp v "type").isSome) =
      allHaveConst variants "type" := rfl
  have g2 : (variants.all fun v => (constOfProp v "kind").isSome) =
      allHaveConst variants "kind" := rfl
  have g3 : (variants.all fun v => (constOfProp v "discriminator").isSome) =
      allHaveConst variants "discriminator" := rfl
  rw [findDiscriminator]
  simp only [List.find?]
  rw [g1, g2, g3]
  cases h1 : allHaveConst variants "type" <;>
    cases h2 : allHaveConst variants "kind" <;>
      cases h3 : allHaveConst variants "discriminator" <;> simp

/-- When every branch carries the discriminator constant, the guarded
variant collection degenerates to a plain map over the branches. -/
theorem filterMapMem_const_eq_map (variants : List JsonSchema) (n : String)
    (options : ExtractOptions) (depth : Nat)
    (h : ∀ v ∈ variants, (constOfProp v n).isSome) :
    filterMapMem variants (fun variant hm =>
      match constOfProp variant n with
      | Option.some discriminatorValue =>
        Option.some (⟨jsToString discriminatorValue,
          extractObjectFields variant options (depth + 1)⟩ : UVariant SchemaField)
      | Option.none => Option.none) =
    variants.map (fun v =>
      (⟨jsToString ((constOfProp v n).getD (JsonValue.str "")),
        extractObjectFields v options (depth + 1)⟩ : UVariant SchemaField)) := by
  induction variants with
  | nil => rfl
  | cons x xs ih =>
    have hx := h x (List.mem_cons_self x xs)
    cases hc : constOfProp x n with
    | none => rw [hc] at hx; cases hx
    | some c =>
      simp only [filterMapMem, hc, List.map_cons, Option.getD_some]
      exact congrArg (List.cons _) (ih (fun v hv => h v (List.mem_cons_of_mem x hv)))

/-- C2: discriminator detection scans the candidate names `"type"`,
`"kind"`, `"discriminator"` in that priority order, a name qualifying iff
every branch of `oneOf || anyOf || []` has a property of that name carrying
a `const`; when a name is selected, `extractUnionData` returns
`isDiscriminated = true` with `discriminatorField` set to that name and one
`⟨discriminatorValue, fields⟩` variant per branch in branch order; when no
name qualifies, the result is a plain (non-discriminated) union. -/
theorem C2_discriminator_union (schema : JsonSchema) (options : ExtractOptions) (depth : Nat) :
    (findDiscriminator (unionBranches schema) =
      (if allHaveConst (unionBranches schema) "type" then Option.some "type"
       else if allHaveConst (unionBranches schema) "kind" then Option.some "kind"
       else if allHaveConst (unionBranches schema) "discriminator" then
         Option.some "discriminator"
       else Option.none)) ∧
    (∀ n, allHaveConst (unionBranches schema) n = true ↔
      ∀ v ∈ unionBranches schema, (constOfProp v n).isSome) ∧
    (findDiscriminator (unionBranches schema) = Option.none ↔
      allHaveConst (unionBranches schema) "type" = false ∧
      allHaveConst (unionBranches schema) "kind" = false ∧
      allHaveConst (unionBranches schema) "discriminator" = false) ∧
    (∀ n, findDiscriminator (unionBranches schema) = Option.some n →
      extractUnionData schema options depth =
        { isDiscriminated := true,
          variants := Option.some ((unionBranches schema).map (fun v =>
            (⟨jsToString ((constOfProp v n).getD (JsonValue.str "")),
              extractObjectFields v options (depth + 1)⟩ : UVariant SchemaField))),
          discriminatorField := Option.some n,
          types := [] }) ∧
    (findDiscriminator (unionBranches schema) = Option.none →
      (extractUnionData schema options depth).isDiscriminated = false) := by
  refine ⟨findDiscriminator_eq (unionBranches schema), ?_, ?_, ?_, ?_⟩
  · intro n
    simp [allHaveConst, List.all_eq_true]
  · rw [findDiscriminator_eq]
    cases h1 : allHaveConst (unionBranches schema) "type" <;>
      cases h2 : allHaveConst (unionBranches schema) "kind" <;>
        cases h3 : allHaveConst (unionBranches schema) "discriminator" <;> simp
  · intro n hn
    have hall : allHaveConst (unionBranches schema) n = true := by
      rw [findDiscriminator] at hn
      have := List.find?_some hn
      simpa [allHaveConst] using this
    have hmem : ∀ v ∈ unionBranches schema, (constOfProp v n).isSome := by
      intro v hv
      rw [allHaveConst, List.all_eq_true] at hall
      exact hall v hv
    simp only [extractUnionData, hn]
    rw [filterMapMem_const_eq_map (unionBranches schema) n options depth hmem]
  · intro hn
    simp only [extractUnionData, hn]

/-- A union branch of the form `{properties: {kind: {const: <v>}}}`. -/
def c2Branch (v : String) : JsonSchema :=
  JsonSchema.mk {}
    (Option.some [("kind", JsonSchema.mk { constF := Option.some (JsonValue.str v) }
      Option.none JItems.absent Option.none Option.none Option.none JAddProps.absent)])
    JItems.absent Option.none Option.none Option.none JAddProps.absent

/-- `{oneOf: [c2Branch "a", c2Branch "b"]}`. -/
def c2Union : JsonSchema :=
  JsonSchema.mk {} Option.none JItems.absent
    (Option.some [c2Branch "a", c2Branch "b"]) Option.none Option.none JAddProps.absent

/-- C2 witness: the discriminated-output clause applied at a concrete
two-branch union tagged through `kind`. -/
theorem C2_discriminator_union_witness :
    extractUnionData c2Union OPTIONS 0 =
      { isDiscriminated := true,
        variants := Option.some
          [⟨"a", extractObjectFields (c2Branch "a") OPTIONS 1⟩,
           ⟨"b", extractObjectFields (c2Branch "b") OPTIONS 1⟩],
        discriminatorField := Option.some "kind",
        types := [] } := by
  have h := (C2_discriminator_union c2Union OPTIONS 0).2.2.2.1 "kind" rfl
  rw [h]
  rfl

/-! ### Claim C3: ordering of extracted object fields -/

/-- The claim's bucket key, written from its words: discriminator-tagged
fields form the first bucket *regardless of requiredness*, then required
fields, then optional fields. -/
def specSortKey (f : SchemaField) : Nat :=
  if truthyStr f.discriminatorField then 0 else if f.isRequired then 1 else 2

/-- The claim's ordering relation. -/
def specSortLe (a b : SchemaField) : Bool :=
  specSortKey a ≤ specSortKey b

/-- Object-field extraction as the claim describes it: the same
per-property fields, stably sorted by the claim's bucket key. -/
def specObjectFields (schema : JsonSchema) (options : ExtractOptions) (depth : Nat) :
    List SchemaField :=
  let raw : List SchemaField :=
    match schema.properties with
    | Option.some props =>
      props.map (fun p =>
        extractField p.1 p.2 ((schema.core.requiredF.getD []).contains p.1) options depth)
    | Option.none => []
  raw.mergeSort specSortLe

/-- The source comparator's bucket key: it compares `isRequired` whenever
the discriminator test ties, so tagged-required precedes tagged-optional. -/
def fieldKey (f : SchemaField) : Nat :=
  (if truthyStr f.discriminatorField then 0 else 2) + (if f.isRequired then 0 else 1)

theorem fieldSortLe_eq_key (a b : SchemaField) :
    fieldSortLe a b = decide (fieldKey a ≤ fieldKey b) := by
  rw [fieldSortLe, fieldKey, fieldKey]
  cases h1 : truthyStr a.discriminatorField <;>
    cases h2 : truthyStr b.discriminatorField <;>
      cases h3 : a.isRequired <;> cases h4 : b.isRequired <;> simp [h1, h2, h3, h4]

theorem fieldSortLe_trans (a b c : SchemaField)
    (hab : fieldSortLe a b = true) (hbc : fieldSortLe b c = true) :
    fieldSortLe a c = true := by
  rw [fieldSortLe_eq_key] at hab hbc ⊢
  simp only [decide_eq_true_eq] at hab hbc ⊢
  omega

theorem fieldSortLe_total (a b : SchemaField) :
    (fieldSortLe a b || fieldSortLe b a) = true := by
  rw [fieldSortLe_eq_key, fieldSortLe_eq_key]
  rcases Nat.le_total (fieldKey a) (fieldKey b) with h | h <;> simp [h]

/-- Two-element merge sorts evaluate to a single comparison. -/
theorem mergeSort_pair {α : Type} (le : α → α → Bool) (a b : α) :
    List.mergeSort [a, b] le = if le a b then [a, b] else [b, a] := by
  simp [List.mergeSort, List.merge]

/-- A property node carrying only `const: <v>` (extracted as a
discriminator-tagged single-value enum). -/
def c3ConstProp (v : String) : JsonSchema :=
  JsonSchema.mk { constF := Option.some (JsonValue.str v) } Option.none JItems.absent
    Option.none Option.none Option.none JAddProps.absent

/-- `{type:"object", properties:{a:{const:"x"}, b:{const:"y"}},
required:["b"]}`: both children are discriminator-tagged, `a` optional and
declared first, `b` required and declared second. -/
def c3Schema : JsonSchema :=
  JsonSchema.mk { typeF := TypeField.str "object", requiredF := Option.some ["b"] }
    (Option.some [("a", c3ConstProp "x"), ("b", c3ConstProp "y")]) JItems.absent
    Option.none Option.none Option.none JAddProps.absent

/-- Evaluation of `extractField` on a bare-`const` property: the field is
tagged with its own name, and keeps the requested requiredness. -/
theorem extractField_c3ConstProp (name v : String) (isRequired : Bool)
    (options : ExtractOptions) (depth : Nat) :
    (extractField name (c3ConstProp v) isRequired options depth).discriminatorField =
      Option.some name ∧
    (extractField name (c3ConstProp v) isRequired options depth).isRequired = isRequired := by
  have h1 : (unwrapNullable (c3ConstProp v)).actualSchema.core.enumF = Option.none := rfl
  have h2 : (unwrapNullable (c3ConstProp v)).actualSchema.core.constF =
      Option.some (JsonValue.str v) := rfl
  refine ⟨?_, by simp⟩
  simp only [extractField, extractFieldRefine, h1, h2]
  split <;> simp

/-- C3 counterexample: on `c3Schema` the source comparator orders the
required tagged field `b` before the optional tagged field `a`, while the
claim's ordering (tagged bucket first, ties in source order) keeps `a`
before `b`; the produced list therefore differs from the claim's. -/
theorem C3_counterexample :
    ((extractObjectFields c3Schema {} 0).map SchemaField.name = ["b", "a"]) ∧
    ((specObjectFields c3Schema {} 0).map SchemaField.name = ["a", "b"]) ∧
    extractObjectFields c3Schema {} 0 ≠ specObjectFields c3Schema {} 0 := by
  have hfa := extractField_c3ConstProp "a" "x" false ({} : ExtractOptions) 0
  have hfb := extractField_c3ConstProp "b" "y" true ({} : ExtractOptions) 0
  have hle : fieldSortLe (extractField "a" (c3ConstProp "x") false {} 0)
      (extractField "b" (c3ConstProp "y") true {} 0) = false := by
    rw [fieldSortLe_eq_key]
    rw [fieldKey, fieldKey, hfa.1, hfb.1, hfa.2, hfb.2]
    simp [truthyStr]
  have hle2 : specSortLe (extractField "a" (c3ConstProp "x") false {} 0)
      (extractField "b" (c3ConstProp "y") true {} 0) = true := by
    rw [specSortLe, specSortKey, specSortKey, hfa.1, hfb.1]
    simp [truthyStr]
  have h1 : extractObjectFields c3Schema {} 0 =
      [extractField "b" (c3ConstProp "y") true {} 0,
       extractField "a" (c3ConstProp "x") false {} 0] := by
    rw [extractObjectFields_eq c3Schema {} 0
      [("a", c3ConstProp "x"), ("b", c3ConstProp "y")] rfl]
    show List.mergeSort [extractField "a" (c3ConstProp "x") false {} 0,
      extractField "b" (c3ConstProp "y") true {} 0] fieldSortLe = _
    rw [mergeSort_pair, hle]
    simp
  have h2 : specObjectFields c3Schema {} 0 =
      [extractField "a" (c3ConstProp "x") false {} 0,
       extractField "b" (c3ConstProp "y") true {} 0] := by
    show List.mergeSort [extractField "a" (c3ConstProp "x") false {} 0,
      extractField "b" (c3ConstProp "y") true {} 0] specSortLe = _
    rw [mergeSort_pair, hle2]
    simp
  have hn1 : (extractObjectFields c3Schema {} 0).map SchemaField.name = ["b", "a"] := by
    rw [h1]
    simp
  have hn2 : (specObjectFields c3Schema {} 0).map SchemaField.name = ["a", "b"] := by
    rw [h2]
    simp
  refine ⟨hn1, hn2, fun hcontra => ?_⟩
  have := congrArg (List.map SchemaField.name) hcontra
  rw [hn1, hn2] at this
  exact absurd this (by decide)

/-- C3 (amended): the produced `objectFields` list is a permutation of the
per-property extraction, sorted under the source comparator's four-bucket
key (tagged-and-required, tagged-and-optional, required, optional — the
comparator falls through to the `isRequired` test even when *both* fields
are discriminator-tagged, unlike the claim's two-criterion ordering), and
the sort is stable: any two fields already in comparator order in the
per-property list keep that relative order. -/
theorem C3_field_order (schema : JsonSchema) (options : ExtractOptions) (depth : Nat)
    (props : List (String × JsonSchema)) (hp : schema.properties = Option.some props) :
    (extractObjectFields schema options depth).Perm
      (props.map (fun p =>
        extractField p.1 p.2 ((schema.core.requiredF.getD []).contains p.1) options depth)) ∧
    List.Pairwise (fun a b => fieldKey a ≤ fieldKey b)
      (extractObjectFields schema options depth) ∧
    (∀ a b, fieldSortLe a b = true →
      [a, b].Sublist (props.map (fun p =>
        extractField p.1 p.2 ((schema.core.requiredF.getD []).contains p.1) options depth)) →
      [a, b].Sublist (extractObjectFields schema options depth)) := by
  rw [extractObjectFields_eq schema options depth props hp]
  refine ⟨List.mergeSort_perm _ _, ?_, ?_⟩
  · have h := List.sorted_mergeSort fieldSortLe_trans fieldSortLe_total
      (props.map (fun p =>
        extractField p.1 p.2 ((schema.core.requiredF.getD []).contains p.1) options depth))
    refine h.imp ?_
    intro a b hab
    rw [fieldSortLe_eq_key, decide_eq_true_eq] at hab
    exact hab
  · intro a b hab hsub
    exact List.pair_sublist_mergeSort fieldSortLe_trans fieldSortLe_total hab hsub

/-- C3 witness: the amended theorem at `c3Schema` (permutation clause). -/
theorem C3_field_order_witness :
    (extractObjectFields c3Schema {} 0).Perm
      [extractField "a" (c3ConstProp "x") false {} 0,
       extractField "b" (c3ConstProp "y") true {} 0] :=
  (C3_field_order c3Schema {} 0 [("a", c3ConstProp "x"), ("b", c3ConstProp "y")] rfl).1

/-! ### Claim C9: description/examples capture around nullability
unwrapping -/

/-- The refinement ladder never touches the examples attached by the base
steps. -/
theorem extractFieldRefine_examples (name : String) (f : SchemaField) (a : JsonSchema)
    (options : ExtractOptions) (depth : Nat) :
    (extractFieldRefine name f a options depth).core.examples = f.core.examples := by
  simp only [extractFieldRefine]
  cases henum : a.core.enumF with
  | some vs => simp
  | none =>
    cases hconst : a.core.constF with
    | some c => simp
    | none =>
      repeat' split
      all_goals simp_all

/-- On a node whose unwrapped schema has neither `oneOf` nor `anyOf`, the
refinement ladder leaves the description untouched (the only overriding
branch is the plain-union one). -/
theorem extractFieldRefine_description (name : String) (f : SchemaField) (a : JsonSchema)
    (options : ExtractOptions) (depth : Nat)
    (h1 : a.oneOf = Option.none) (h2 : a.anyOf = Option.none) :
    (extractFieldRefine name f a options depth).core.description = f.core.description := by
  simp only [extractFieldRefine]
  cases henum : a.core.enumF with
  | some vs => simp
  | none =>
    cases hconst : a.core.constF with
    | some c => simp
    | none =>
      repeat' split
      all_goals simp_all

theorem extractFieldBase_core_examples (name : String) (schema : JsonSchema)
    (isRequired : Bool) :
    (extractFieldBase name schema isRequired).core.examples =
      (if (expectedExamples schema).length > 0 then Option.some (expectedExamples schema)
       else Option.none) := by
  simp only [extractFieldBase, expectedExamples]
  split <;> simp

/-- C9 (amended): the extracted field's examples are always the tagged
combination `expectedExamples` (good examples from the truthiness-preferred
`examples || actual.examples`, then bad ones; attached only when the
combination is non-empty), and on nodes whose unwrapped schema carries no
`oneOf`/`anyOf` the description is `topLevelDescription ||
actualSchema.description` — a *truthiness* preference, so a present but
empty top-level string loses to the inner one (and a plain-union node
overrides the description entirely with a `Union of …` summary). -/
theorem C9_metadata_capture (name : String) (schema : JsonSchema) (isRequired : Bool)
    (options : ExtractOptions) (depth : Nat) :
    ((unwrapNullable schema).actualSchema.oneOf = Option.none →
      (unwrapNullable schema).actualSchema.anyOf = Option.none →
      (extractField name schema isRequired options depth).description =
        orTruthyStr schema.core.description
          (unwrapNullable schema).actualSchema.core.description) ∧
    (extractField name schema isRequired options depth).examples =
      (if (expectedExamples schema).length > 0 then Option.some (expectedExamples schema)
       else Option.none) := by
  constructor
  · intro h1 h2
    simp only [extractField, SchemaField.description]
    split <;>
      simp [extractFieldRefine_description name _ _ options depth h1 h2,
        extractFieldBase_core_description]
  · simp only [extractField, SchemaField.examples]
    split <;> simp [extractFieldRefine_examples, extractFieldBase_core_examples]

/-- `{type:"string", description:"inner"}`: the non-null branch of the
counterexample's null union. -/
def c9Inner : JsonSchema :=
  JsonSchema.mk { typeF := TypeField.str "string", description := Option.some "inner" }
    Option.none JItems.absent Option.none Option.none Option.none JAddProps.absent

/-- `{description:"", anyOf:[{type:"null"}, {type:"string",
description:"inner"}]}`: the top-level description is *present* but
empty. -/
def c9Schema : JsonSchema :=
  JsonSchema.mk { description := Option.some "" } Option.none JItems.absent Option.none
    (Option.some [typedSchema "null", c9Inner]) Option.none JAddProps.absent

/-- C9 counterexample: the top-level description is present (the empty
string), yet the extracted field's description is the unwrapped inner
schema's `"inner"` — JS `||` prefers by truthiness, not by presence. -/
theorem C9_counterexample :
    c9Schema.core.description = Option.some "" ∧
    (extractField "f" c9Schema false {} 0).description = Option.some "inner" := by
  refine ⟨rfl, ?_⟩
  have h1 : (unwrapNullable c9Schema).actualSchema = c9Inner := rfl
  have h2 : c9Inner.oneOf = Option.none := rfl
  have h3 : c9Inner.anyOf = Option.none := rfl
  have h4 : c9Inner.core.enumF = Option.none := rfl
  have h5 : c9Inner.core.constF = Option.none := rfl
  simp only [extractField, extractFieldRefine, SchemaField.description, h1, h2, h3, h4, h5]
  repeat' split
  all_goals simp_all [h1]
  all_goals rfl

/-- C9 witness: the amended theorem at a plain described string node. -/
theorem C9_metadata_capture_witness :
    (extractField "f"
        (JsonSchema.mk { typeF := TypeField.str "string", description := Option.some "top" }
          Option.none JItems.absent Option.none Option.none Option.none JAddProps.absent)
        false {} 0).description = Option.some "top" ∧
    (extractField "f"
        (JsonSchema.mk { typeF := TypeField.str "string", description := Option.some "top" }
          Option.none JItems.absent Option.none Option.none Option.none JAddProps.absent)
        false {} 0).examples = Option.none := by
  have h := C9_metadata_capture "f"
    (JsonSchema.mk { typeF := TypeField.str "string", description := Option.some "top" }
      Option.none JItems.absent Option.none Option.none Option.none JAddProps.absent)
    false {} 0
  refine ⟨?_, ?_⟩
  · rw [h.1 rfl rfl]
    rfl
  · rw [h.2]
    rfl

end PromptSchema
